import Mathlib

/-!
Verification development for the `nodejs-screaming-architecture` project
generator (a VS Code extension that scaffolds Node.js projects with one
folder per "domain").

The development shallowly embeds the parts of the TypeScript source that the
verified claims are about:

* `src/utils/fileUtils.ts` (`TemplateEngine`: placeholder interpolation with
  dotted-path lookup, the `capitalize` helper);
* `src/generators/domain/*.ts` (`ControllerGenerator`, `RoutesGenerator`,
  `RepositoryGenerator`, `UseCaseGenerator`, `EntityGenerator`,
  `DomainGenerator`);
* `src/generators/ProjectGenerator.ts` (`createProjectStructure`);
* `src/commands/addDomain.ts` together with
  `src/utils/fileGenerator.ts` (`FileGenerator.generateDomainFiles`).

JavaScript strings are modelled as Lean `String`s (the inputs involved are
ASCII); `path.join` joins with `"/"` as on POSIX; JavaScript values that flow
through the template engine are modelled by the inductive `JSValue`.
-/

namespace JSStr

/-- JS `str.charAt(0)`: one-character string, or `""` when `str` is empty. -/
def charAt0 (s : String) : String := ⟨s.data.take 1⟩

/-- JS `str.slice(1)`: everything after the first character. -/
def slice1 (s : String) : String := ⟨s.data.drop 1⟩

/-- JS `str.toUpperCase()` restricted to ASCII, which is the only alphabet the
generator's domain names use. -/
def toUpperStr (s : String) : String := ⟨s.data.map Char.toUpper⟩

/-- JS `str.toLowerCase()` restricted to ASCII. -/
def toLowerStr (s : String) : String := ⟨s.data.map Char.toLower⟩

/-- ASCII whitespace, the class JS `trim()` removes at both ends
(the keys and names in this development are ASCII). -/
def isSpace (c : Char) : Bool := c = ' ' || c = '\t' || c = '\n' || c = '\r'

/-- JS `str.trim()`. -/
def trim (s : String) : String :=
  ⟨((s.data.dropWhile isSpace).reverse.dropWhile isSpace).reverse⟩

/-- JS `str.split('.')` on the character list: every maximal run between dots,
keeping empty runs, as in JavaScript (`"" → [""]`, `"a..b" → ["a","",b"]`). -/
def splitDots : List Char → List (List Char)
  | [] => [[]]
  | '.' :: rest => [] :: splitDots rest
  | c :: rest =>
    match splitDots rest with
    | s :: ss => (c :: s) :: ss
    | [] => [[c]]

/-- The inline derivation `domain.charAt(0).toUpperCase() + domain.slice(1)`
used verbatim by every concrete generator class. -/
def jsCapitalize (s : String) : String := toUpperStr (charAt0 s) ++ slice1 s

/-- The domain/project-name shape required by the extension's prompts:
`[a-z][a-z0-9-]*`. -/
def isSlug (s : String) : Bool :=
  match s.data with
  | [] => false
  | c :: rest =>
    (('a' ≤ c && c ≤ 'z') : Bool) &&
      rest.all (fun d => ('a' ≤ d && d ≤ 'z') || ('0' ≤ d && d ≤ '9') || d = '-')

/-- The stricter name shape `^[a-z][a-z0-9]*$` that `addDomainCommand`
validates interactively (`src/commands/addDomain.ts`, line 30). -/
def isDomainWord (s : String) : Bool :=
  match s.data with
  | [] => false
  | c :: rest =>
    (('a' ≤ c && c ≤ 'z') : Bool) &&
      rest.all (fun d => ('a' ≤ d && d ≤ 'z') || ('0' ≤ d && d ≤ '9'))

end JSStr

/-- JavaScript runtime values as far as the template engine and the generated
artifacts observe them.  `undef` is JavaScript's `undefined`; `date` carries a
timestamp and abstracts a `Date` object (its text form never reaches a claim). -/
inductive JSValue where
  | undef
  | vNull
  | bool (b : Bool)
  | num (n : Int)
  | str (s : String)
  | date (t : Nat)
  | obj (fields : List (String × JSValue))
deriving Repr

namespace JSValue

/-- JS truthiness: `undefined`, `null`, `false`, `0` and `""` are falsy,
every other modelled value (including every object and date) is truthy. -/
def truthy : JSValue → Bool
  | undef => false
  | vNull => false
  | bool b => b
  | num n => n != 0
  | str s => s != ""
  | date _ => true
  | obj _ => true

/-- Discriminator for `value !== undefined`. -/
def isUndef : JSValue → Bool
  | undef => true
  | _ => false

/-- JS property read `current[key]` for the values the engine walks: own
properties of object literals; reads on primitives and dates yield
`undefined` (none of the engine's dotted paths name a built-in property of a
primitive). -/
def getProp : JSValue → String → JSValue
  | obj fields, key => ((fields.find? (fun f => f.1 = key)).map Prod.snd).getD undef
  | _, _ => undef

/-- JS `String(value)` for the modelled values.  A plain object prints as
`[object Object]`; the date case abstracts the locale-dependent `Date`
rendering, which no verified claim observes. -/
def jsToString : JSValue → String
  | undef => "undefined"
  | vNull => "null"
  | bool true => "true"
  | bool false => "false"
  | num n => toString n
  | str s => s
  | date _ => "[Date]"
  | obj _ => "[object Object]"

end JSValue

namespace TemplateEngine

open JSValue JSStr

/-- `TemplateEngine.getNestedProperty` (`fileUtils.ts`, lines 175-179):
`path.split('.').reduce((current, key) => current && current[key] !== undefined
? current[key] : undefined, obj)`.  A falsy `current` short-circuits the
conjunction, so the step yields `undefined` without reading the property. -/
def getNestedProperty (o : JSValue) (path : String) : JSValue :=
  (splitDots path.data).foldl
    (fun current key =>
      if current.truthy then
        if (current.getProp ⟨key⟩).isUndef then JSValue.undef else current.getProp ⟨key⟩
      else JSValue.undef)
    o

/-- One left-to-right pass of `template.replace(/\$\{([^}]+)\}/g, ...)`
(`TemplateEngine.interpolate`, `fileUtils.ts` lines 159-170).  The state
distinguishes scanning outside a placeholder (`none`) from having consumed
`${` and accumulated the reversed key characters so far (`some acc`); the
regex takes the shortest non-empty brace-free key, a `${}` or an unterminated
`${…` never matches and stays verbatim, and a matched key is trimmed, looked
up with `getNestedProperty` and replaced by `String(value)` exactly when the
value is not `undefined`. -/
def interpAux (ctx : JSValue) : Option (List Char) → List Char → List Char
  | none, [] => []
  | none, '$' :: '{' :: rest => interpAux ctx (some []) rest
  | none, c :: rest => c :: interpAux ctx none rest
  | some acc, [] => '$' :: '{' :: acc.reverse
  | some acc, '}' :: rest =>
    if acc.isEmpty then
      '$' :: '{' :: '}' :: interpAux ctx none rest
    else
      let key : String := ⟨acc.reverse⟩
      let v := getNestedProperty ctx (trim key)
      (if v.isUndef then '$' :: '{' :: acc.reverse ++ ['}'] else (jsToString v).data)
        ++ interpAux ctx none rest
  | some acc, c :: rest => interpAux ctx (some (c :: acc)) rest

/-- `TemplateEngine.interpolate template data`: total — a missing key leaves
the placeholder verbatim (the source's `catch` is unreachable because the
guarded reduce never throws), it never raises. -/
def interpolate (template : String) (ctx : JSValue) : String :=
  ⟨interpAux ctx none template.data⟩

/-- `TemplateEngine.capitalize` (`fileUtils.ts`, lines 207-209):
`str.charAt(0).toUpperCase() + str.slice(1).toLowerCase()`. -/
def capitalize (s : String) : String :=
  toUpperStr (charAt0 s) ++ toLowerStr (slice1 s)

/-- `TemplateEngine.toCamelCase` (`fileUtils.ts`, lines 214-216): every
occurrence of a hyphen followed by a lowercase letter is replaced by that
letter uppercased (the source's global regex replace). -/
def toCamelCase (s : String) : String :=
  ⟨go s.data⟩
where
  go : List Char → List Char
    | [] => []
    | '-' :: c :: rest =>
      if 'a' ≤ c ∧ c ≤ 'z' then c.toUpper :: go rest else '-' :: go (c :: rest)
    | c :: rest => c :: go rest

end TemplateEngine

/-!
## Per-domain artifact generators

Relative paths are taken from the domain's folder (`domainPath` in the
source); `path.join` is modelled as joining with `"/"`.
-/

namespace ControllerGenerator

/-- `domain.charAt(0).toUpperCase() + domain.slice(1)`
(`ControllerGenerator.generateForDomain`, line 17). -/
def capitalizedDomain (domain : String) : String :=
  JSStr.toUpperStr (JSStr.charAt0 domain) ++ JSStr.slice1 domain

/-- `` `${capitalizedDomain}Controller` `` (line 18). -/
def controllerName (domain : String) : String :=
  capitalizedDomain domain ++ "Controller"

/-- `path.join(domainPath, 'infrastructure', 'controllers',
`` `${controllerName}.js` ``)` (line 19), relative to the domain folder. -/
def controllerRelPath (domain : String) : String :=
  "infrastructure/controllers/" ++ controllerName domain ++ ".js"

/-- The identifier the emitted file exports: the controller content ends with
`module.exports = ${controllerName}` and declares `class ${controllerName}`
(`createControllerContent`, lines 41 and 313). -/
def exportedClassName (domain : String) : String := controllerName domain

end ControllerGenerator

namespace RoutesGenerator

/-- `domain.charAt(0).toUpperCase() + domain.slice(1)`
(`RoutesGenerator.generateForDomain`, line 17 of `RoutesGenerator.ts`). -/
def capitalizedDomain (domain : String) : String :=
  JSStr.toUpperStr (JSStr.charAt0 domain) ++ JSStr.slice1 domain

/-- `path.join(domainPath, 'infrastructure', 'routes.js')` (line 18),
relative to the domain folder: the routes file lives in `infrastructure/`. -/
def routesRelPath : String := "infrastructure/routes.js"

/-- The module specifier in the emitted routes file:
`require('./controllers/${capitalizedDomain}Controller')`
(`createRoutesContent`, line 30). -/
def controllerRequireSpecifier (domain : String) : String :=
  "./controllers/" ++ capitalizedDomain domain ++ "Controller"

/-- The identifier the routes file binds that require to:
`const ${capitalizedDomain}Controller = require(...)` (line 30). -/
def controllerRequireIdent (domain : String) : String :=
  capitalizedDomain domain ++ "Controller"

/-- The in-memory repository specifier the routes file also requires:
`require('./repositories/Memory${capitalizedDomain}Repository')` (line 34). -/
def memoryRepositoryRequireSpecifier (domain : String) : String :=
  "./repositories/Memory" ++ capitalizedDomain domain ++ "Repository"

end RoutesGenerator

/-- Node resolution of a same-directory relative `require('./x/y')` issued
from a module in directory `fromDir`: the file `fromDir/x/y.js`. -/
def resolveRequire (fromDir spec : String) : String :=
  fromDir ++ "/" ++ ⟨spec.data.drop 2⟩ ++ ".js"

namespace RepositoryGenerator

/-- The inline capitalisation of `RepositoryGenerator.generateForDomain`
(`part_004`, line 126). -/
def capitalizedDomain (domain : String) : String :=
  JSStr.toUpperStr (JSStr.charAt0 domain) ++ JSStr.slice1 domain

/-- `generateRepositoryInterface` writes
`application/ports/${capitalizedDomain}Repository.js` (lines 145-146). -/
def interfaceRelPath (domain : String) : String :=
  "application/ports/" ++ capitalizedDomain domain ++ "Repository.js"

/-- `generateMemoryRepository` writes
`infrastructure/repositories/Memory${capitalizedDomain}Repository.js`
(lines 239-240). -/
def memoryRelPath (domain : String) : String :=
  "infrastructure/repositories/Memory" ++ capitalizedDomain domain ++ "Repository.js"

/-- The method names the emitted repository interface declares, each with a
`throw new Error('Method ... must be implemented')` body (lines 148-227). -/
def interfaceMethods : List String :=
  ["save", "findById", "findAll", "findBy", "update", "delete", "exists", "count"]

/-- The database identifier used by the generators. -/
inductive Database where
  | mongodb
  | postgresql
  | mysql
  | dbNone
deriving Repr, DecidableEq

/-- The string value of the TS union type
`'mongodb' | 'postgresql' | 'mysql' | 'none'`. -/
def Database.asString : Database → String
  | .mongodb => "mongodb"
  | .postgresql => "postgresql"
  | .mysql => "mysql"
  | .dbNone => "none"

/-- `getDatabasePrefix` (lines 386-393). -/
def databasePrefixOf : Database → String
  | .mongodb => "Mongo"
  | .postgresql => "Postgres"
  | .mysql => "Mysql"
  | .dbNone => ""

/-- The relative paths `RepositoryGenerator.generateForDomain` writes
(lines 125-138): the interface, the memory implementation, and — when a
database is selected — the backend-specific implementation. -/
def generateForDomainFiles (domain : String) (db : Database) : List String :=
  [interfaceRelPath domain, memoryRelPath domain] ++
    (if db = .dbNone then []
     else ["infrastructure/repositories/" ++ databasePrefixOf db ++
             capitalizedDomain domain ++ "Repository.js"])

end RepositoryGenerator

namespace UseCaseGenerator

/-- The inline capitalisation of `UseCaseGenerator.generateForDomain`. -/
def capitalizedDomain (domain : String) : String :=
  JSStr.toUpperStr (JSStr.charAt0 domain) ++ JSStr.slice1 domain

/-- The five use-case name stems generated per domain
(`generateForDomain`). -/
def useCaseStems : List String := ["Create", "Update", "Delete", "FindById", "FindAll"]

/-- The relative paths written by `generateForDomain`:
`application/use-cases/${name}${capitalizedDomain}UseCase.js` for each stem. -/
def generateForDomainFiles (domain : String) : List String :=
  useCaseStems.map
    (fun stem => "application/use-cases/" ++ stem ++ capitalizedDomain domain ++ "UseCase.js")

end UseCaseGenerator

namespace EntityGenerator

/-- The inline capitalisation of `EntityGenerator.generateForDomain`
(`part_004`, line 782). -/
def capitalizedDomain (domain : String) : String :=
  JSStr.toUpperStr (JSStr.charAt0 domain) ++ JSStr.slice1 domain

/-- `path.join(domainPath, 'domain', 'entities',
`` `${capitalizedDomain}.js` ``)` (line 783). -/
def entityRelPath (domain : String) : String :=
  "domain/entities/" ++ capitalizedDomain domain ++ ".js"

end EntityGenerator

namespace DomainGenerator

/-- The per-domain directory skeleton `createDomainStructure` creates under
the domain folder (`part_004`, lines 62-76). -/
def domainStructureDirs : List String :=
  ["application/services", "application/use-cases", "application/ports",
   "domain/entities", "domain/value-objects", "domain/events",
   "infrastructure/repositories", "infrastructure/controllers",
   "infrastructure/adapters"]

/-- The relative paths of the files `DomainGenerator.generateDomainFiles`
(`part_004`, lines 78-102) emits for one domain: it invokes the entity,
use-case, controller and routes generators — and, although it constructs a
`RepositoryGenerator` and collects its (empty) created-file list, it never
calls `repositoryGenerator.generateForDomain`, so no repository artifact is
in this list. -/
def generateDomainFiles (domain : String) : List String :=
  [EntityGenerator.entityRelPath domain]
    ++ UseCaseGenerator.generateForDomainFiles domain
    ++ [ControllerGenerator.controllerRelPath domain]
    ++ [RoutesGenerator.routesRelPath]

end DomainGenerator

/-!
## Project-level structure planning (`ProjectGenerator.createProjectStructure`)
-/

open RepositoryGenerator (Database)

/-- The project specification collected by the host prompts
(`src/types/ProjectInfo.ts`). -/
structure ProjectInfo where
  name : String
  description : String
  author : String
  version : String
  domains : List String
  includeDocker : Bool
  includeTests : Bool
  database : Database
deriving Repr

namespace ProjectGenerator

/-- The fixed base directories pushed first by `createProjectStructure`
(`ProjectGenerator.ts`, lines 73-88). -/
def baseDirs : List String :=
  ["src", "src/shared", "src/shared/domain", "src/shared/domain/events",
   "src/shared/domain/value-objects", "src/shared/infrastructure",
   "src/shared/infrastructure/database", "src/shared/infrastructure/messaging",
   "src/shared/infrastructure/logging", "src/shared/application",
   "src/shared/application/middlewares", "config", "docs"]

/-- The test directories pushed when `includeTests` (lines 91-98). -/
def testBaseDirs : List String := ["tests", "tests/unit", "tests/integration", "tests/e2e"]

/-- The Docker directories pushed when `includeDocker` (lines 101-108). -/
def dockerDirs (db : Database) : List String :=
  ["docker"] ++
    (if db = .dbNone then []
     else ["docker/" ++ db.asString, "docker/" ++ db.asString ++ "/init"])

/-- The thirteen per-domain directories pushed for each domain
(lines 111-128). -/
def domainDirs (d : String) : List String :=
  ["src/" ++ d,
   "src/" ++ d ++ "/application",
   "src/" ++ d ++ "/application/services",
   "src/" ++ d ++ "/application/use-cases",
   "src/" ++ d ++ "/application/ports",
   "src/" ++ d ++ "/domain",
   "src/" ++ d ++ "/domain/entities",
   "src/" ++ d ++ "/domain/value-objects",
   "src/" ++ d ++ "/domain/events",
   "src/" ++ d ++ "/infrastructure",
   "src/" ++ d ++ "/infrastructure/repositories",
   "src/" ++ d ++ "/infrastructure/controllers",
   "src/" ++ d ++ "/infrastructure/adapters"]

/-- The per-domain test directories pushed when `includeTests`
(lines 131-137). -/
def domainTestDirs (d : String) : List String :=
  ["tests/" ++ d, "tests/" ++ d ++ "/unit", "tests/" ++ d ++ "/integration"]

/-- The full ordered directory list `createProjectStructure` assembles and
then creates with `FileUtils.createDirectories` (lines 70-142): base, test,
Docker, then for each domain — in specification order — its thirteen source
directories followed by its test directories. -/
def createProjectStructureDirs (info : ProjectInfo) : List String :=
  baseDirs
    ++ (if info.includeTests then testBaseDirs else [])
    ++ (if info.includeDocker then dockerDirs info.database else [])
    ++ info.domains.flatMap
        (fun d => domainDirs d ++ if info.includeTests then domainTestDirs d else [])

/-!
### A segmented view of the same plan

To reason about duplicate paths, each planned directory string is also given
as its list of `/`-separated segments, and the two views are proved equal
under `joinSegs`.
-/

/-- Join path segments with `/` (what the slash-containing literals of the
source spell out). -/
def joinSegs : List String → String
  | [] => ""
  | [s] => s
  | s :: rest => s ++ "/" ++ joinSegs rest

def segBaseDirs : List (List String) :=
  [["src"], ["src", "shared"], ["src", "shared", "domain"],
   ["src", "shared", "domain", "events"], ["src", "shared", "domain", "value-objects"],
   ["src", "shared", "infrastructure"], ["src", "shared", "infrastructure", "database"],
   ["src", "shared", "infrastructure", "messaging"],
   ["src", "shared", "infrastructure", "logging"], ["src", "shared", "application"],
   ["src", "shared", "application", "middlewares"], ["config"], ["docs"]]

def segTestBaseDirs : List (List String) :=
  [["tests"], ["tests", "unit"], ["tests", "integration"], ["tests", "e2e"]]

def segDockerDirs (db : Database) : List (List String) :=
  [["docker"]] ++
    (if db = .dbNone then []
     else [["docker", db.asString], ["docker", db.asString, "init"]])

def segDomainDirs (d : String) : List (List String) :=
  [["src", d],
   ["src", d, "application"],
   ["src", d, "application", "services"],
   ["src", d, "application", "use-cases"],
   ["src", d, "application", "ports"],
   ["src", d, "domain"],
   ["src", d, "domain", "entities"],
   ["src", d, "domain", "value-objects"],
   ["src", d, "domain", "events"],
   ["src", d, "infrastructure"],
   ["src", d, "infrastructure", "repositories"],
   ["src", d, "infrastructure", "controllers"],
   ["src", d, "infrastructure", "adapters"]]

def segDomainTestDirs (d : String) : List (List String) :=
  [["tests", d], ["tests", d, "unit"], ["tests", d, "integration"]]

def segStructureDirs (info : ProjectInfo) : List (List String) :=
  segBaseDirs
    ++ (if info.includeTests then segTestBaseDirs else [])
    ++ (if info.includeDocker then segDockerDirs info.database else [])
    ++ info.domains.flatMap
        (fun d => segDomainDirs d ++ if info.includeTests then segDomainTestDirs d else [])

end ProjectGenerator

/-!
## Semantics of the generated per-domain artifacts

`EntityGenerator.createEntityContent` (`part_004`, lines 806-861) and
`UseCaseGenerator.create*UseCase` emit one JavaScript class per domain whose
bodies differ only in the spliced names.  Their runtime behaviour is embedded
here once, parameterised by the spliced `capitalizedDomain`.  `new Date()` is
modelled by an explicit `now : Nat` clock value; a thrown `Error` is an
`Except.error` carrying the message. -/

namespace GeneratedEntity

/-- The state of an instance of the generated entity class:
`constructor(id, name)` stores both and stamps `createdAt`/`updatedAt`.
`id` keeps its JavaScript value; the generated validators only ever call
string methods on `name`, so `name` is a string. -/
structure Entity where
  id : JSValue
  name : String
  createdAt : Nat
  updatedAt : Nat
deriving Repr

/-- `isValid()`: `this.id && this.name && this.name.trim().length > 0`. -/
def isValid (e : Entity) : Bool :=
  e.id.truthy && e.name ≠ "" && (JSStr.trim e.name).length > 0

/-- `static create(id, name)`: construct, then throw `Invalid … data` unless
`isValid()`. -/
def create (id : JSValue) (name : String) (now : Nat) : Except String Entity :=
  let e : Entity := ⟨id, name, now, now⟩
  if isValid e then .ok e else .error "Invalid data"

/-- The serialised form `toJSON()` returns:
`{ id, name, createdAt, updatedAt }`. -/
structure EntityJSON where
  id : JSValue
  name : String
  createdAt : Nat
  updatedAt : Nat
deriving Repr

/-- `toJSON()`. -/
def toJSON (e : Entity) : EntityJSON := ⟨e.id, e.name, e.createdAt, e.updatedAt⟩

/-- `static fromJSON(json)`: `new Entity(json.id, json.name)` followed by
restoring both dates from the serialised values — no re-validation. -/
def fromJSON (j : EntityJSON) : Entity := ⟨j.id, j.name, j.createdAt, j.updatedAt⟩

/-- `toJSON()` as the `JSValue` object the event payloads carry. -/
def toJSONValue (e : Entity) : JSValue :=
  .obj [("id", e.id), ("name", .str e.name),
        ("createdAt", .date e.createdAt), ("updatedAt", .date e.updatedAt)]

/-- `updateName(newName)`: throw `Name cannot be empty` when the new name is
falsy or blank, otherwise store it and restamp `updatedAt`. -/
def updateName (e : Entity) (newName : String) (now : Nat) : Except String Entity :=
  if newName = "" ∨ JSStr.trim newName = "" then .error "Name cannot be empty"
  else .ok { e with name := newName, updatedAt := now }

/-- `update(data)`: apply `updateName` when `data.name` is truthy, then
restamp `updatedAt`.  The update payload's `name` field is modelled as a
string, `""` doubling for every falsy absence. -/
def update (e : Entity) (dataName : String) (now : Nat) : Except String Entity :=
  if dataName ≠ "" then
    match updateName e dataName now with
    | .error msg => .error msg
    | .ok e' => .ok { e' with updatedAt := now }
  else .ok { e with updatedAt := now }

end GeneratedEntity

namespace GeneratedUseCases

open GeneratedEntity

/-- The shape of the object every generated create/update/delete use case
passes to `eventBus.publish` (`UseCaseGenerator.ts`): `type`, `aggregateId`,
`data`, `timestamp` (`new Date()`), `version: 1`. -/
structure DomainEvent where
  type : String
  aggregateId : JSValue
  data : JSValue
  timestamp : Nat
  version : Nat
deriving Repr

/-- The payload of the generated create use case's `execute(data)`:
`data.id` (any JS value, possibly absent/falsy) and `data.name`. -/
structure CreateInput where
  id : JSValue
  name : String
deriving Repr

/-- `validateInput` of `Create${Cap}UseCase` (`createCreateUseCase`,
lines 108-119 of `UseCaseGenerator.ts`): data required, name required and
non-blank, at most 255 characters. -/
def validateCreateInput (capd : String) (data : Option CreateInput) : Except String CreateInput :=
  match data with
  | none => .error (capd ++ " data is required")
  | some d =>
    if d.name = "" ∨ (JSStr.trim d.name).length = 0 then .error (capd ++ " name is required")
    else if d.name.length > 255 then .error (capd ++ " name is too long")
    else .ok d

/-- `Create${Cap}UseCase.execute(data)` (lines 69-127): validate, build the
entity via the generated entity's `create` (defaulting a falsy `data.id` to
`this.generateId()`), save through the injected repository, and — exactly when
an event bus was injected — publish one `${Cap}Created` event carrying the
saved entity.  Any thrown error is re-thrown as `Failed to create …`.
The repository is the injected dependency, modelled as the function `save`;
the returned list is the sequence of events published during the call. -/
def createExecute (capd : String) (save : Entity → Entity) (hasEventBus : Bool)
    (genId : String) (now : Nat) (data : Option CreateInput) :
    Except String (Entity × List DomainEvent) :=
  match validateCreateInput capd data with
  | .error msg => .error ("Failed to create: " ++ msg)
  | .ok d =>
    match create (if d.id.truthy then d.id else .str genId) d.name now with
    | .error msg => .error ("Failed to create: " ++ msg)
    | .ok entity =>
      let saved := save entity
      .ok (saved,
        if hasEventBus then
          [⟨capd ++ "Created", saved.id, toJSONValue saved, now, 1⟩]
        else [])

/-- `Update${Cap}UseCase.execute(id, updateData)` (`createUpdateUseCase`,
lines 130-171): find the entity (`${Cap} not found` otherwise), apply the
generated entity's `update`, save, and — exactly when an event bus was
injected — publish one `${Cap}Updated` event carrying the updated entity. -/
def updateExecute (capd : String) (findById : JSValue → Option Entity)
    (save : Entity → Entity) (hasEventBus : Bool) (now : Nat)
    (id : JSValue) (updName : String) :
    Except String (Entity × List DomainEvent) :=
  match findById id with
  | none => .error ("Failed to update: " ++ capd ++ " not found")
  | some existing =>
    match update existing updName now with
    | .error msg => .error ("Failed to update: " ++ msg)
    | .ok changed =>
      let updated := save changed
      .ok (updated,
        if hasEventBus then
          [⟨capd ++ "Updated", updated.id, toJSONValue updated, now, 1⟩]
        else [])

/-- `Delete${Cap}UseCase.execute(id)` (`createDeleteUseCase`, lines 171-208):
verify existence (`${Cap} not found` otherwise), delete through the injected
repository (an external effect with no observable value here), and — exactly
when an event bus was injected — publish one `${Cap}Deleted` event whose
payload is `{ id }`; the call returns `{ id, deleted: true }`. -/
def deleteExecute (capd : String) (findById : JSValue → Option Entity)
    (hasEventBus : Bool) (now : Nat) (id : JSValue) :
    Except String (JSValue × List DomainEvent) :=
  match findById id with
  | none => .error ("Failed to delete: " ++ capd ++ " not found")
  | some _ =>
    .ok (JSValue.obj [("id", id), ("deleted", .bool true)],
      if hasEventBus then
        [⟨capd ++ "Deleted", id, .obj [("id", id)], now, 1⟩]
      else [])

end GeneratedUseCases

/-!
## The `addDomain` command (`src/commands/addDomain.ts` with
`FileGenerator.generateDomainFiles` from `src/utils/fileGenerator.ts`)

The workspace is modelled as a flat snapshot of directory paths and file
paths-with-content, all relative to the workspace root.  `fs.mkdirSync(p,
{recursive: true})` is modelled as recording `p` (every intermediate segment
it would also create lies under the same planned subtree, so the claims'
path discipline is unaffected); `fs.writeFileSync` replaces the content at a
path; `fs.existsSync` checks directories and files alike.
-/

structure FS where
  dirs : List String
  files : List (String × String)
deriving Repr

namespace FS

def existsPath (fs : FS) (p : String) : Bool :=
  fs.dirs.contains p || (fs.files.map Prod.fst).contains p

def mkdir (fs : FS) (p : String) : FS :=
  if fs.dirs.contains p then fs else { fs with dirs := fs.dirs ++ [p] }

def writeFile (fs : FS) (p content : String) : FS :=
  { fs with files := fs.files.filter (fun f => f.1 ≠ p) ++ [(p, content)] }

def fileContent (fs : FS) (p : String) : Option String :=
  (fs.files.find? (fun f => f.1 = p)).map Prod.snd

end FS

namespace FileGenerator

/-- The inline capitalisation of `FileGenerator.generateDomainFiles`
(`part_001`, line 226). -/
def capitalizedDomain (domain : String) : String :=
  JSStr.toUpperStr (JSStr.charAt0 domain) ++ JSStr.slice1 domain

/-- The directories `generateDomainFiles` checks and creates when missing
(`part_001`, lines 230-245), relative to the domain folder. -/
def requiredDirs : List String :=
  ["domain/entities", "application/use-cases", "application/ports",
   "infrastructure/controllers", "infrastructure"]

/-- The entity class text written by `generateDomainFiles` (`part_001`,
lines 248-274).  The literal body is outside the verified scope (spec §1);
only the spliced names and the emission path matter to the claims. -/
def entityContent (domain : String) : String :=
  "class " ++ capitalizedDomain domain ++ " { constructor(id, name) { … } }\n" ++
    "module.exports = " ++ capitalizedDomain domain ++ ";"

/-- The create-use-case text (lines 281-321), body abbreviated as above. -/
def useCaseContent (domain : String) : String :=
  "class Create" ++ capitalizedDomain domain ++ "UseCase { … }\n" ++
    "module.exports = Create" ++ capitalizedDomain domain ++ "UseCase;"

/-- The repository-interface text (lines 328-346), body abbreviated. -/
def repositoryContent (domain : String) : String :=
  "class " ++ capitalizedDomain domain ++ "Repository { … }\n" ++
    "module.exports = " ++ capitalizedDomain domain ++ "Repository;"

/-- The controller text (lines 353-406), body abbreviated. -/
def controllerContent (domain : String) : String :=
  "class " ++ capitalizedDomain domain ++ "Controller { … }\n" ++
    "module.exports = " ++ capitalizedDomain domain ++ "Controller;"

/-- The routes text (lines 413-476), body abbreviated. -/
def routesContent (domain : String) : String :=
  "const router = express.Router(); // " ++ domain ++ "\nmodule.exports = router;"

/-- The five files `generateDomainFiles(domainPath, domainName)` writes, as
`(relative path, content)` pairs under the domain folder
(`part_001`, lines 276-480, in write order). -/
def domainFileWrites (domain : String) : List (String × String) :=
  [("domain/entities/" ++ capitalizedDomain domain ++ ".js", entityContent domain),
   ("application/use-cases/Create" ++ capitalizedDomain domain ++ "UseCase.js",
     useCaseContent domain),
   ("application/ports/" ++ capitalizedDomain domain ++ "Repository.js",
     repositoryContent domain),
   ("infrastructure/controllers/" ++ capitalizedDomain domain ++ "Controller.js",
     controllerContent domain),
   ("infrastructure/routes.js", routesContent domain)]

/-- `FileGenerator.generateDomainFiles` (`part_001`, lines 225-486): create
any missing required directory under the domain folder, then write the five
domain files. -/
def generateDomainFiles (fs : FS) (domainPath domain : String) : FS :=
  let fs1 := requiredDirs.foldl
    (fun acc dir =>
      if acc.existsPath (domainPath ++ "/" ++ dir) then acc
      else acc.mkdir (domainPath ++ "/" ++ dir))
    fs
  (domainFileWrites domain).foldl
    (fun acc w => acc.writeFile (domainPath ++ "/" ++ w.1) w.2) fs1

end FileGenerator

namespace AddDomain

/-- The directory list of `createDomainStructure` (`addDomain.ts`,
lines 78-95), relative to `src/`. -/
def structureDirs (domain : String) : List String :=
  [domain,
   domain ++ "/application/services",
   domain ++ "/application/use-cases",
   domain ++ "/application/ports",
   domain ++ "/domain/entities",
   domain ++ "/domain/value-objects",
   domain ++ "/domain/events",
   domain ++ "/infrastructure/repositories",
   domain ++ "/infrastructure/controllers",
   domain ++ "/infrastructure/adapters"]

/-- `createDomainStructure(srcPath, domain)` (lines 78-102): create the
domain's directory skeleton under `src/`, then `tests/<domain>` when a
`tests` tree exists. -/
def createDomainStructure (fs : FS) (domain : String) : FS :=
  addTestsDir ((structureDirs domain).foldl (fun acc dir => acc.mkdir ("src/" ++ dir)) fs) domain
where
  /-- the final `tests/<domain>` step (lines 97-101): only when a `tests`
  tree exists. -/
  addTestsDir (fs1 : FS) (domain : String) : FS :=
    if fs1.existsPath "tests" then fs1.mkdir ("tests/" ++ domain) else fs1

/-- `value.trim().toLowerCase()` — the normalisation the command applies to
the entered name (lines 35 and 46). -/
def normalizeDomain (input : String) : String := JSStr.toLowerStr (JSStr.trim input)

inductive Outcome where
  | noSrcFolder
  | invalidName
  | domainExists
  | success
deriving Repr, DecidableEq

/-- `addDomainCommand` (`addDomain.ts`, lines 7-76): abort when the workspace
has no `src` folder; reject a name that fails `^[a-z][a-z0-9]*$`; report
`Domain already exists` — before creating anything — when `src/<normalized>`
exists; otherwise create the structure and generate the domain files. -/
def addDomainCommand (fs : FS) (input : String) : FS × Outcome :=
  if ¬ fs.existsPath "src" then (fs, .noSrcFolder)
  else if ¬ JSStr.isDomainWord input then (fs, .invalidName)
  else if fs.existsPath ("src/" ++ normalizeDomain input) then (fs, .domainExists)
  else
    let d := normalizeDomain input
    let fs1 := createDomainStructure fs d
    let fs2 := FileGenerator.generateDomainFiles fs1 ("src/" ++ d) d
    (fs2, .success)

end AddDomain

/-- `p` is the directory `root` itself or lies strictly beneath it.  The frame
claims about `addDomainCommand` are phrased with this relation. -/
def pathUnder (root p : String) : Prop :=
  p = root ∨ (root ++ "/").data.IsPrefix p.data

instance (root p : String) : Decidable (pathUnder root p) := by
  unfold pathUnder; infer_instance

/-!
## Helper lemmas
-/

theorem mk_data (s : String) : (⟨s.data⟩ : String) = s := rfl

theorem str_eq_of_data {a b : String} (h : a.data = b.data) : a = b := by
  cases a; cases b; simp only at h; exact congrArg String.mk h

theorem toLower_fixed (c : Char)
    (h : (('a' ≤ c && c ≤ 'z') || ('0' ≤ c && c ≤ '9') || c = '-') = true) :
    c.toLower = c := by
  simp only [Bool.or_eq_true, Bool.and_eq_true, decide_eq_true_eq] at h
  simp only [Char.toLower, Char.toNat]
  have key : ¬ (65 ≤ c.val.toNat ∧ c.val.toNat ≤ 90) := by
    rcases h with (⟨h1, h2⟩ | ⟨h1, h2⟩) | rfl
    · have g1 : ('a' : Char).val.toNat ≤ c.val.toNat := h1
      have e1 : ('a' : Char).val.toNat = 97 := by decide
      omega
    · have g2 : c.val.toNat ≤ ('9' : Char).val.toNat := h2
      have e2 : ('9' : Char).val.toNat = 57 := by decide
      omega
    · decide
  simp [key]

theorem slug_lower_fixed (s : String) (h : JSStr.isSlug s = true) :
    JSStr.toLowerStr (JSStr.slice1 s) = JSStr.slice1 s := by
  rcases s with ⟨l⟩
  match l, h with
  | c :: rest, h =>
    simp only [JSStr.isSlug, Bool.and_eq_true, List.all_eq_true] at h
    simp only [JSStr.toLowerStr, JSStr.slice1, List.drop_succ_cons, List.drop_zero]
    apply congrArg String.mk
    conv_rhs => rw [show rest = rest.map id from (List.map_id rest).symm]
    exact List.map_congr_left fun d hd => toLower_fixed d (h.2 d hd)

theorem word_chars (input : String) (h : JSStr.isDomainWord input = true) :
    ∀ c ∈ input.data, (('a' ≤ c && c ≤ 'z') || ('0' ≤ c && c ≤ '9')) = true := by
  intro c hc
  unfold JSStr.isDomainWord at h
  rcases input with ⟨l⟩
  match l, h, hc with
  | x :: rest, h, hc =>
    simp only [Bool.and_eq_true, List.all_eq_true] at h
    rcases List.mem_cons.mp hc with rfl | hc'
    · simp [h.1]
    · exact h.2 c hc'

theorem word_not_space (c : Char)
    (h : (('a' ≤ c && c ≤ 'z') || ('0' ≤ c && c ≤ '9')) = true) :
    JSStr.isSpace c = false := by
  simp only [Bool.or_eq_true, Bool.and_eq_true, decide_eq_true_eq] at h
  have hge : 48 ≤ c.val.toNat := by
    have e0 : ('0' : Char).val.toNat = 48 := by decide
    have ea : ('a' : Char).val.toNat = 97 := by decide
    rcases h with ⟨h1, _⟩ | ⟨h1, _⟩
    · have hx : ('a' : Char).val.toNat ≤ c.val.toNat := h1
      omega
    · have hx : ('0' : Char).val.toNat ≤ c.val.toNat := h1
      omega
  have hs : ∀ sp : Char, sp ∈ [' ', '\t', '\n', '\r'] → ¬ c = sp := by
    intro sp hsp e
    subst e
    revert hge
    fin_cases hsp <;> decide
  unfold JSStr.isSpace
  simp [hs ' ' (by simp), hs '\t' (by simp), hs '\n' (by simp), hs '\r' (by simp)]

theorem dropWhile_all_false {p : Char → Bool} (l : List Char)
    (h : ∀ c ∈ l, p c = false) : l.dropWhile p = l := by
  cases l with
  | nil => rfl
  | cons x xs =>
    rw [List.dropWhile_cons, h x (by simp)]
    simp

theorem normalize_word_id (input : String) (h : JSStr.isDomainWord input = true) :
    AddDomain.normalizeDomain input = input := by
  have hchars := word_chars input h
  have htrim : JSStr.trim input = input := by
    unfold JSStr.trim
    rw [dropWhile_all_false _ (fun c hc => word_not_space c (hchars c hc)),
      dropWhile_all_false _ (fun c hc => word_not_space c (hchars c (List.mem_reverse.mp hc))),
      List.reverse_reverse]
  have hfix : ∀ c ∈ input.data, Char.toLower c = c := by
    intro c hc
    apply toLower_fixed
    have hx := hchars c hc
    simp only [Bool.or_eq_true] at hx ⊢
    tauto
  unfold AddDomain.normalizeDomain
  rw [htrim]
  unfold JSStr.toLowerStr
  apply str_eq_of_data
  simp only
  conv_rhs => rw [show input.data = input.data.map id from (List.map_id input.data).symm]
  exact List.map_congr_left fun c hc => hfix c hc

theorem interpAux_consume (ctx : JSValue) (ks : List Char) :
    ∀ acc tail, '}' ∉ ks →
      TemplateEngine.interpAux ctx (some acc) (ks ++ tail) =
        TemplateEngine.interpAux ctx (some (ks.reverse ++ acc)) tail := by
  induction ks with
  | nil => intro acc tail _; simp
  | cons c ks' ih =>
    intro acc tail h
    have hc : c ≠ '}' := fun e => h (e ▸ List.mem_cons_self c ks')
    have h' : '}' ∉ ks' := fun e => h (List.mem_cons_of_mem c e)
    have step : TemplateEngine.interpAux ctx (some acc) (c :: (ks' ++ tail)) =
        TemplateEngine.interpAux ctx (some (c :: acc)) (ks' ++ tail) := by
      rw [TemplateEngine.interpAux.eq_def]
      split <;> simp_all
    rw [List.cons_append, step, ih (c :: acc) tail h']
    simp

theorem interp_single (ctx : JSValue) (key : String) (hne : key ≠ "")
    (hb : '}' ∉ key.data) :
    TemplateEngine.interpolate ("$\x7b" ++ key ++ "\x7d") ctx =
      if (TemplateEngine.getNestedProperty ctx (JSStr.trim key)).isUndef
      then "$\x7b" ++ key ++ "\x7d"
      else JSValue.jsToString (TemplateEngine.getNestedProperty ctx (JSStr.trim key)) := by
  have e1 : ("$\x7b" : String).data = ['$', '{'] := by decide
  have e2 : ("\x7d" : String).data = ['}'] := by decide
  have hdata : ("$\x7b" ++ key ++ "\x7d").data = '$' :: '{' :: (key.data ++ ['}']) := by
    simp [String.data_append, e1, e2]
  have hkd : key.data ≠ [] := by
    intro e
    exact hne (str_eq_of_data (by simp [e]))
  have hrev : key.data.reverse.isEmpty = false := by
    simp [List.isEmpty_iff, hkd]
  unfold TemplateEngine.interpolate
  rw [hdata]
  have step1 : TemplateEngine.interpAux ctx none ('$' :: '{' :: (key.data ++ ['}'])) =
      TemplateEngine.interpAux ctx (some []) (key.data ++ ['}']) := rfl
  rw [step1, interpAux_consume ctx key.data [] ['}'] hb]
  simp only [TemplateEngine.interpAux, List.append_nil, List.reverse_reverse, hrev,
    Bool.false_eq_true, if_false, mk_data]
  split
  · apply str_eq_of_data
    simp [hdata]
  · exact mk_data _

theorem splitDots_no_dot (a : List Char) (h : '.' ∉ a) : JSStr.splitDots a = [a] := by
  induction a with
  | nil => rfl
  | cons c rest ih =>
    have hc : c ≠ '.' := fun e => h (e ▸ List.mem_cons_self c rest)
    have h' : '.' ∉ rest := fun e => h (List.mem_cons_of_mem c e)
    rw [JSStr.splitDots.eq_def]
    split <;> simp_all

theorem splitDots_sep (a b : List Char) (h : '.' ∉ a) :
    JSStr.splitDots (a ++ '.' :: b) = a :: JSStr.splitDots b := by
  induction a with
  | nil => rfl
  | cons c rest ih =>
    have hc : c ≠ '.' := fun e => h (e ▸ List.mem_cons_self c rest)
    have h' : '.' ∉ rest := fun e => h (List.mem_cons_of_mem c e)
    rw [List.cons_append, JSStr.splitDots.eq_def]
    split <;> simp_all

theorem nested_two_segments (ctx : JSValue) (k1 k2 : String)
    (h1 : '.' ∉ k1.data) (h2 : '.' ∉ k2.data) (hctx : ctx.truthy = true) :
    TemplateEngine.getNestedProperty ctx (k1 ++ "." ++ k2) =
      (if (ctx.getProp k1).isUndef then JSValue.undef
       else if (ctx.getProp k1).truthy then
         (if ((ctx.getProp k1).getProp k2).isUndef then JSValue.undef
          else (ctx.getProp k1).getProp k2)
       else JSValue.undef) := by
  have edot : ("." : String).data = ['.'] := by decide
  have pathdata : (k1 ++ "." ++ k2).data = k1.data ++ '.' :: k2.data := by
    simp [String.data_append, edot]
  unfold TemplateEngine.getNestedProperty
  rw [pathdata, splitDots_sep k1.data k2.data h1, splitDots_no_dot k2.data h2]
  simp only [List.foldl, hctx, if_true, mk_data]
  split
  · rename_i hu
    simp [hu, JSValue.truthy]
  · rename_i hu
    simp only [hu, Bool.false_eq_true, if_false]

theorem mkdir_mem {fs : FS} {p q : String} (h : q ∈ (fs.mkdir p).dirs) :
    q ∈ fs.dirs ∨ q = p := by
  unfold FS.mkdir at h
  split at h
  · exact .inl h
  · rcases List.mem_append.mp h with h | h
    · exact .inl h
    · exact .inr (List.mem_singleton.mp h)

theorem mkdir_files (fs : FS) (p : String) : (fs.mkdir p).files = fs.files := by
  unfold FS.mkdir; split <;> rfl

theorem writeFile_dirs (fs : FS) (p c : String) : (fs.writeFile p c).dirs = fs.dirs := rfl

theorem find?_filter_ne (l : List (String × String)) (p q : String) (h : q ≠ p) :
    (l.filter (fun f => f.1 ≠ p)).find? (fun f => f.1 = q) = l.find? (fun f => f.1 = q) := by
  induction l with
  | nil => rfl
  | cons x xs ih =>
    by_cases hxp : x.1 = p
    · have hb : (decide (x.1 ≠ p)) = false := by simp [hxp]
      have hq : (decide (x.1 = q)) = false := by
        simp only [decide_eq_false_iff_not]
        rw [hxp]
        exact fun e => h e.symm
      rw [List.filter_cons, hb]
      simp only [Bool.false_eq_true, if_false]
      rw [ih, List.find?_cons, hq]
    · have hb : (decide (x.1 ≠ p)) = true := by simp [hxp]
      rw [List.filter_cons, hb, if_pos rfl, List.find?_cons, List.find?_cons]
      cases hq : decide (x.1 = q) <;> simp only [hq, ih]

theorem fileContent_writeFile_ne (fs : FS) (p c q : String) (h : q ≠ p) :
    (fs.writeFile p c).fileContent q = fs.fileContent q := by
  unfold FS.writeFile FS.fileContent
  simp only [List.find?_append, find?_filter_ne fs.files p q h]
  have : List.find? (fun f => f.1 = q) [(p, c)] = none := by
    simp [List.find?_cons, h.symm]
  cases hf : fs.files.find? (fun f => f.1 = q) <;> simp [hf, this]

theorem foldl_mkdir_mem (L : List String) (g : String → String) :
    ∀ (fs : FS) (q : String),
      q ∈ (L.foldl (fun acc dir => acc.mkdir (g dir)) fs).dirs →
        q ∈ fs.dirs ∨ ∃ dir ∈ L, q = g dir := by
  induction L with
  | nil => intro fs q h; exact .inl h
  | cons x xs ih =>
    intro fs q h
    rcases ih (fs.mkdir (g x)) q h with h' | ⟨dir, hd, he⟩
    · rcases mkdir_mem h' with h'' | h''
      · exact .inl h''
      · exact .inr ⟨x, by simp, h''⟩
    · exact .inr ⟨dir, by simp [hd], he⟩

theorem foldl_mkdir_files (L : List String) (g : String → String) :
    ∀ (fs : FS), (L.foldl (fun acc dir => acc.mkdir (g dir)) fs).files = fs.files := by
  induction L with
  | nil => intro fs; rfl
  | cons x xs ih => intro fs; rw [List.foldl_cons, ih, mkdir_files]

theorem foldl_mkdirIf_mem (L : List String) (g : String → String) :
    ∀ (fs : FS) (q : String),
      q ∈ (L.foldl
            (fun acc dir => if acc.existsPath (g dir) then acc else acc.mkdir (g dir))
            fs).dirs →
        q ∈ fs.dirs ∨ ∃ dir ∈ L, q = g dir := by
  induction L with
  | nil => intro fs q h; exact .inl h
  | cons x xs ih =>
    intro fs q h
    rw [List.foldl_cons] at h
    rcases ih _ q h with h' | ⟨dir, hd, he⟩
    · split at h'
      · exact .inl h'
      · rcases mkdir_mem h' with h'' | h''
        · exact .inl h''
        · exact .inr ⟨x, by simp, h''⟩
    · exact .inr ⟨dir, by simp [hd], he⟩

theorem foldl_mkdirIf_files (L : List String) (g : String → String) :
    ∀ (fs : FS), (L.foldl
        (fun acc dir => if acc.existsPath (g dir) then acc else acc.mkdir (g dir))
        fs).files = fs.files := by
  induction L with
  | nil => intro fs; rfl
  | cons x xs ih =>
    intro fs
    rw [List.foldl_cons, ih]
    split
    · rfl
    · rw [mkdir_files]

theorem foldl_write_dirs (ws : List (String × String)) (base : String) :
    ∀ (fs : FS),
      (ws.foldl (fun acc w => acc.writeFile (base ++ "/" ++ w.1) w.2) fs).dirs = fs.dirs := by
  induction ws with
  | nil => intro fs; rfl
  | cons x xs ih => intro fs; rw [List.foldl_cons, ih, writeFile_dirs]

theorem foldl_write_frame (ws : List (String × String)) (base : String) (q : String)
    (hq : ∀ w ∈ ws, q ≠ base ++ "/" ++ w.1) :
    ∀ (fs : FS),
      (ws.foldl (fun acc w => acc.writeFile (base ++ "/" ++ w.1) w.2) fs).fileContent q =
        fs.fileContent q := by
  induction ws with
  | nil => intro fs; rfl
  | cons x xs ih =>
    intro fs
    rw [List.foldl_cons, ih (fun w hw => hq w (by simp [hw])),
      fileContent_writeFile_ne _ _ _ _ (hq x (by simp))]

theorem pathUnder_join (root rel : String) : pathUnder root (root ++ "/" ++ rel) := by
  right
  exact ⟨rel.data, by simp [String.data_append]⟩

theorem under_cat (d s : String) (t : List Char) (hs : s.data = '/' :: t) :
    pathUnder ("src/" ++ d) ("src/" ++ (d ++ s)) := by
  right
  refine ⟨t, ?_⟩
  simp [String.data_append, hs]

theorem createDomainStructure_files (fs : FS) (d : String) :
    (AddDomain.createDomainStructure fs d).files = fs.files := by
  unfold AddDomain.createDomainStructure AddDomain.createDomainStructure.addTestsDir
  split
  · rw [mkdir_files, foldl_mkdir_files]
  · rw [foldl_mkdir_files]

theorem createDomainStructure_dirs (fs : FS) (d q : String)
    (h : q ∈ (AddDomain.createDomainStructure fs d).dirs) :
    q ∈ fs.dirs ∨ pathUnder ("src/" ++ d) q ∨ q = "tests/" ++ d := by
  unfold AddDomain.createDomainStructure AddDomain.createDomainStructure.addTestsDir at h
  have main : ∀ q, q ∈ ((AddDomain.structureDirs d).foldl
      (fun acc dir => acc.mkdir ("src/" ++ dir)) fs).dirs →
      q ∈ fs.dirs ∨ pathUnder ("src/" ++ d) q := by
    intro q hq
    rcases foldl_mkdir_mem _ _ fs q hq with h' | ⟨dir, hdir, rfl⟩
    · exact .inl h'
    · right
      simp only [AddDomain.structureDirs, List.mem_cons, List.not_mem_nil, or_false] at hdir
      rcases hdir with rfl | rfl | rfl | rfl | rfl | rfl | rfl | rfl | rfl | rfl
      · exact .inl rfl
      · exact under_cat d "/application/services" ("application/services").data (by decide)
      · exact under_cat d "/application/use-cases" ("application/use-cases").data (by decide)
      · exact under_cat d "/application/ports" ("application/ports").data (by decide)
      · exact under_cat d "/domain/entities" ("domain/entities").data (by decide)
      · exact under_cat d "/domain/value-objects" ("domain/value-objects").data (by decide)
      · exact under_cat d "/domain/events" ("domain/events").data (by decide)
      · exact under_cat d "/infrastructure/repositories" ("infrastructure/repositories").data
          (by decide)
      · exact under_cat d "/infrastructure/controllers" ("infrastructure/controllers").data
          (by decide)
      · exact under_cat d "/infrastructure/adapters" ("infrastructure/adapters").data (by decide)
  split at h
  · rcases mkdir_mem h with h' | h'
    · rcases main q h' with h'' | h''
      · exact .inl h''
      · exact .inr (.inl h'')
    · exact .inr (.inr h')
  · rcases main q h with h' | h'
    · exact .inl h'
    · exact .inr (.inl h')

theorem generateDomainFiles_dirs (fs : FS) (base d q : String)
    (h : q ∈ (FileGenerator.generateDomainFiles fs base d).dirs) :
    q ∈ fs.dirs ∨ pathUnder base q := by
  unfold FileGenerator.generateDomainFiles at h
  rw [foldl_write_dirs] at h
  rcases foldl_mkdirIf_mem _ (fun dir => base ++ "/" ++ dir) fs q h with h' | ⟨dir, _, rfl⟩
  · exact .inl h'
  · exact .inr (pathUnder_join base dir)

theorem generateDomainFiles_frame (fs : FS) (base d q : String)
    (hq : ¬ pathUnder base q) :
    (FileGenerator.generateDomainFiles fs base d).fileContent q = fs.fileContent q := by
  unfold FileGenerator.generateDomainFiles
  rw [foldl_write_frame _ _ _
    (fun w _ => fun e => hq (by rw [e]; exact pathUnder_join base w.1))]
  unfold FS.fileContent
  rw [foldl_mkdirIf_files]


theorem not_under_of_head {root p : String} (c c' : Char)
    (hroot : root.data.head? = some c) (hp : p.data.head? = some c') (hne : c ≠ c') :
    ¬ pathUnder root p := by
  rintro (rfl | ⟨t, ht⟩)
  · rw [hroot] at hp
    exact hne (by injection hp)
  · have h1 : (root ++ "/").data.head? = some c := by
      rw [String.data_append]
      rcases root with ⟨l⟩
      match l, hroot with
      | x :: xs, hroot =>
        simp only [List.head?_cons, Option.some.injEq] at hroot
        simp [hroot]
    have h2 : ((root ++ "/").data ++ t).head? = some c := by
      rcases he : (root ++ "/").data with _ | ⟨x, xs⟩
      · rw [he] at h1; cases h1
      · rw [he] at h1
        simpa using h1
    rw [ht, hp] at h2
    injection h2 with e
    exact hne e.symm

theorem src_head (d : String) : ("src/" ++ d).data.head? = some 's' := by
  rw [String.data_append]
  have e : ("src/" : String).data = ['s', 'r', 'c', '/'] := by decide
  rw [e]
  rfl

theorem not_under_src_server (d : String)
    (hd : ∀ c ∈ d.data, (('a' ≤ c && c ≤ 'z') || ('0' ≤ c && c ≤ '9')) = true) :
    ¬ pathUnder ("src/" ++ d) "src/server.js" := by
  have hdot : '.' ∉ d.data := by
    intro hm
    have := hd '.' hm
    revert this
    decide
  have e4 : ("src/" : String).data = ['s', 'r', 'c', '/'] := by decide
  have e5 : ("src/server.js" : String).data =
      's' :: 'r' :: 'c' :: '/' :: ("server.js" : String).data := by decide
  have e6 : ("/" : String).data = ['/'] := by decide
  rintro (he | ⟨t, ht⟩)
  · have h2 : ("src/server.js" : String).data = ("src/" ++ d).data := congrArg String.data he
    simp only [String.data_append, e4, e5, List.cons_append, List.nil_append,
      List.cons.injEq, true_and] at h2
    apply hdot
    rw [← h2]
    decide
  · have h2 : ("src/" ++ d ++ "/").data ++ t = ("src/server.js" : String).data := ht
    simp only [String.data_append, e4, e5, e6, List.cons_append, List.nil_append,
      List.append_assoc, List.cons.injEq, true_and] at h2
    have hmem : '/' ∈ (['s', 'e', 'r', 'v', 'e', 'r', '.', 'j', 's'] : List Char) := by
      rw [← h2]
      simp
    revert hmem
    decide

theorem fileContent_of_files_eq {a b : FS} (h : a.files = b.files) (q : String) :
    a.fileContent q = b.fileContent q := by
  unfold FS.fileContent
  rw [h]

/-!
## The claims
-/

/-- **C1.** For every domain, the generated route table references the
controller artifact by exactly the identifier and path the controller
generator emits: the routes file (written at `infrastructure/routes.js`)
requires `./controllers/<Cap>Controller`, which resolves to the very file
`infrastructure/controllers/<Cap>Controller.js` the controller generator
writes, the identifier it binds equals the controller's exported class name
`<Cap>Controller`, and both generators derive `<Cap>` by the same inline rule
from the same raw domain name. -/
theorem routes_controller_reference_consistent (domain : String) :
    resolveRequire "infrastructure" (RoutesGenerator.controllerRequireSpecifier domain) =
      ControllerGenerator.controllerRelPath domain ∧
    RoutesGenerator.controllerRequireIdent domain =
      ControllerGenerator.exportedClassName domain ∧
    RoutesGenerator.capitalizedDomain domain = ControllerGenerator.capitalizedDomain domain := by
  refine ⟨?_, rfl, rfl⟩
  apply str_eq_of_data
  have h1 : ("./controllers/" : String) = "./" ++ "controllers/" := by decide
  have h2 : ("./" : String).data = ['.', '/'] := by decide
  simp [resolveRequire, RoutesGenerator.controllerRequireSpecifier,
    ControllerGenerator.controllerRelPath, ControllerGenerator.controllerName,
    RoutesGenerator.capitalizedDomain, ControllerGenerator.capitalizedDomain,
    h1, h2, String.data_append]

/-- **C2.** Contrary to the claim, `DomainGenerator.generateDomainFiles` never
invokes `RepositoryGenerator.generateForDomain`: for the domain `users` the
emitted per-domain file list contains neither the repository-port artifact
`application/ports/UsersRepository.js` nor the in-memory implementation
`infrastructure/repositories/MemoryUsersRepository.js`, although those are
exactly the two files the repository generator would produce and the emitted
routes file itself requires the in-memory implementation at that very path. -/
theorem domain_generation_skips_repository_artifacts :
    ("application/ports/UsersRepository.js" ∉ DomainGenerator.generateDomainFiles "users") ∧
    ("infrastructure/repositories/MemoryUsersRepository.js" ∉
        DomainGenerator.generateDomainFiles "users") ∧
    RepositoryGenerator.generateForDomainFiles "users" .dbNone =
      ["application/ports/UsersRepository.js",
       "infrastructure/repositories/MemoryUsersRepository.js"] ∧
    resolveRequire "infrastructure" (RoutesGenerator.memoryRepositoryRequireSpecifier "users") =
      "infrastructure/repositories/MemoryUsersRepository.js" := by
  refine ⟨by decide, by decide, by decide, by decide⟩

/-- **C3.** Template interpolation replaces a placeholder whose trimmed
dotted path resolves to a defined value by the string form of that value and
leaves a placeholder whose path hits `undefined` verbatim, never raising for
a missing key (the embedded `interpolate` is a total function); in
particular `"Hello ${user.name}!"` with `{user:{name:"Ana"}}` renders
`"Hello Ana!"` and `"Hello ${user.missing}!"` renders unchanged. -/
theorem interpolate_fail_open (key : String) (ctx : JSValue) (hne : key ≠ "")
    (hb : '}' ∉ key.data) :
    (TemplateEngine.interpolate ("$\x7b" ++ key ++ "\x7d") ctx =
      if (TemplateEngine.getNestedProperty ctx (JSStr.trim key)).isUndef
      then "$\x7b" ++ key ++ "\x7d"
      else JSValue.jsToString (TemplateEngine.getNestedProperty ctx (JSStr.trim key))) ∧
    TemplateEngine.interpolate "Hello ${user.name}!"
      (JSValue.obj [("user", JSValue.obj [("name", JSValue.str "Ana")])]) = "Hello Ana!" ∧
    TemplateEngine.interpolate "Hello ${user.missing}!"
      (JSValue.obj [("user", JSValue.obj [("name", JSValue.str "Ana")])]) =
        "Hello ${user.missing}!" :=
  ⟨interp_single ctx key hne hb, by decide, by decide⟩

/-- Witness for C3 at the concrete key `user.name` and context
`{user:{name:"Ana"}}`. -/
theorem interpolate_fail_open_witness :
    TemplateEngine.interpolate "${user.name}"
      (JSValue.obj [("user", JSValue.obj [("name", JSValue.str "Ana")])]) = "Ana" ∧
    TemplateEngine.interpolate "Hello ${user.name}!"
      (JSValue.obj [("user", JSValue.obj [("name", JSValue.str "Ana")])]) = "Hello Ana!" := by
  have h := interpolate_fail_open "user.name"
    (JSValue.obj [("user", JSValue.obj [("name", JSValue.str "Ana")])])
    (by decide) (by decide)
  exact ⟨by simpa using h.1, h.2.1⟩

/-- **C4.** On every raw name of the shape `[a-z][a-z0-9-]*`, the template
engine's `capitalize` helper (which lowercases the remainder) and the inline
`charAt(0).toUpperCase() + slice(1)` derivation used by every generator
produce the same string — first character uppercased, remainder unchanged —
so one raw name yields one derived name everywhere. -/
theorem capitalize_consistent_on_slugs (s : String) (h : JSStr.isSlug s = true) :
    TemplateEngine.capitalize s = ControllerGenerator.capitalizedDomain s ∧
    ControllerGenerator.capitalizedDomain s = RoutesGenerator.capitalizedDomain s ∧
    ControllerGenerator.capitalizedDomain s = EntityGenerator.capitalizedDomain s ∧
    ControllerGenerator.capitalizedDomain s = RepositoryGenerator.capitalizedDomain s ∧
    ControllerGenerator.capitalizedDomain s = UseCaseGenerator.capitalizedDomain s ∧
    ControllerGenerator.capitalizedDomain s = FileGenerator.capitalizedDomain s ∧
    TemplateEngine.capitalize s = JSStr.toUpperStr (JSStr.charAt0 s) ++ JSStr.slice1 s := by
  have key : TemplateEngine.capitalize s =
      JSStr.toUpperStr (JSStr.charAt0 s) ++ JSStr.slice1 s := by
    unfold TemplateEngine.capitalize
    rw [slug_lower_fixed s h]
  exact ⟨key, rfl, rfl, rfl, rfl, rfl, key⟩

/-- Witness for C4 at the hyphenated slug `order-items`. -/
theorem capitalize_consistent_on_slugs_witness :
    JSStr.isSlug "order-items" = true ∧
    TemplateEngine.capitalize "order-items" =
      ControllerGenerator.capitalizedDomain "order-items" ∧
    TemplateEngine.capitalize "order-items" = "Order-items" := by
  refine ⟨by decide, (capitalize_consistent_on_slugs "order-items" (by decide)).1, by decide⟩

/-- **C6.** Invoking the add-domain command with a (well-formed) domain name
whose folder `src/<domain>` already exists reports the collision — the
`Domain already exists` validation error — before any directory is created,
and returns the filesystem snapshot unchanged: no file or directory is
created or modified. -/
theorem addDomain_collision_unchanged (fs : FS) (input : String)
    (hsrc : fs.existsPath "src" = true)
    (hword : JSStr.isDomainWord input = true)
    (hex : fs.existsPath ("src/" ++ AddDomain.normalizeDomain input) = true) :
    AddDomain.addDomainCommand fs input = (fs, .domainExists) := by
  unfold AddDomain.addDomainCommand
  simp [hsrc, hword, hex]

/-- Witness for C6: a workspace already containing the `orders` domain,
re-adding `orders`. -/
theorem addDomain_collision_unchanged_witness :
    AddDomain.addDomainCommand
        ⟨["src", "src/orders"], [("src/orders/infrastructure/routes.js", "r")]⟩ "orders" =
      (⟨["src", "src/orders"], [("src/orders/infrastructure/routes.js", "r")]⟩,
        .domainExists) :=
  addDomain_collision_unchanged _ "orders" (by decide) (by decide) (by decide)

/-- **C7.** A successful single-domain extension only grows the tree under
`src/<newDomain>` (plus the single `tests/<newDomain>` folder when a tests
tree exists): every directory of the result is either pre-existing or lies
under those two roots, every file whose path is not under `src/<newDomain>`
keeps its exact content — in particular every existing domain's files are
byte-unchanged — and the project-level artifacts (`package.json`,
`src/server.js`, `config/server.js`, `config/database.js`) are never
re-touched. -/
theorem addDomain_extension_frame (fs : FS) (input : String)
    (hsrc : fs.existsPath "src" = true)
    (hword : JSStr.isDomainWord input = true)
    (hnew : fs.existsPath ("src/" ++ AddDomain.normalizeDomain input) = false) :
    (AddDomain.addDomainCommand fs input).2 = .success ∧
    (∀ q, q ∈ (AddDomain.addDomainCommand fs input).1.dirs →
       q ∈ fs.dirs ∨ pathUnder ("src/" ++ AddDomain.normalizeDomain input) q ∨
         q = "tests/" ++ AddDomain.normalizeDomain input) ∧
    (∀ q, ¬ pathUnder ("src/" ++ AddDomain.normalizeDomain input) q →
       (AddDomain.addDomainCommand fs input).1.fileContent q = fs.fileContent q) ∧
    (AddDomain.addDomainCommand fs input).1.fileContent "package.json" =
      fs.fileContent "package.json" ∧
    (AddDomain.addDomainCommand fs input).1.fileContent "src/server.js" =
      fs.fileContent "src/server.js" ∧
    (AddDomain.addDomainCommand fs input).1.fileContent "config/server.js" =
      fs.fileContent "config/server.js" ∧
    (AddDomain.addDomainCommand fs input).1.fileContent "config/database.js" =
      fs.fileContent "config/database.js" := by
  have step : AddDomain.addDomainCommand fs input =
      (FileGenerator.generateDomainFiles
        (AddDomain.createDomainStructure fs (AddDomain.normalizeDomain input))
        ("src/" ++ AddDomain.normalizeDomain input) (AddDomain.normalizeDomain input),
       .success) := by
    unfold AddDomain.addDomainCommand
    simp [hsrc, hword, hnew]
  rw [step]
  have hframe : ∀ q, ¬ pathUnder ("src/" ++ AddDomain.normalizeDomain input) q →
      (FileGenerator.generateDomainFiles
        (AddDomain.createDomainStructure fs (AddDomain.normalizeDomain input))
        ("src/" ++ AddDomain.normalizeDomain input)
        (AddDomain.normalizeDomain input)).fileContent q = fs.fileContent q := by
    intro q hq
    rw [generateDomainFiles_frame _ _ _ q hq]
    exact fileContent_of_files_eq (createDomainStructure_files fs _) q
  have hchars := word_chars input hword
  have hchars' : ∀ c ∈ (AddDomain.normalizeDomain input).data,
      (('a' ≤ c && c ≤ 'z') || ('0' ≤ c && c ≤ '9')) = true := by
    rw [normalize_word_id input hword]
    exact hchars
  refine ⟨rfl, ?_, hframe, ?_, ?_, ?_, ?_⟩
  · intro q hqmem
    rcases generateDomainFiles_dirs _ _ _ q hqmem with h' | h'
    · rcases createDomainStructure_dirs fs _ q h' with h'' | h'' | h''
      · exact .inl h''
      · exact .inr (.inl h'')
      · exact .inr (.inr h'')
    · exact .inr (.inl h')
  · exact hframe _ (not_under_of_head 's' 'p' (src_head _) rfl (by decide))
  · exact hframe _ (not_under_src_server _ hchars')
  · exact hframe _ (not_under_of_head 's' 'c' (src_head _) rfl (by decide))
  · exact hframe _ (not_under_of_head 's' 'c' (src_head _) rfl (by decide))

/-- Witness for C7: adding `billing` to a tree that already holds the
`orders` domain, a package manifest and a server entry point. -/
theorem addDomain_extension_frame_witness :
    (AddDomain.addDomainCommand
        ⟨["src", "src/orders", "tests"],
         [("package.json", "{}"),
          ("src/server.js", "server"),
          ("src/orders/domain/entities/Orders.js", "class Orders {}")]⟩ "billing").2 =
      .success ∧
    (AddDomain.addDomainCommand
        ⟨["src", "src/orders", "tests"],
         [("package.json", "{}"),
          ("src/server.js", "server"),
          ("src/orders/domain/entities/Orders.js", "class Orders {}")]⟩
        "billing").1.fileContent "src/orders/domain/entities/Orders.js" =
      some "class Orders {}" ∧
    (AddDomain.addDomainCommand
        ⟨["src", "src/orders", "tests"],
         [("package.json", "{}"),
          ("src/server.js", "server"),
          ("src/orders/domain/entities/Orders.js", "class Orders {}")]⟩
        "billing").1.fileContent "package.json" = some "{}" := by
  have h := addDomain_extension_frame
    ⟨["src", "src/orders", "tests"],
     [("package.json", "{}"),
      ("src/server.js", "server"),
      ("src/orders/domain/entities/Orders.js", "class Orders {}")]⟩ "billing"
    (by decide) (by decide) (by decide)
  refine ⟨h.1, ?_, ?_⟩
  · rw [h.2.2.1 "src/orders/domain/entities/Orders.js" (by decide)]
    rfl
  · rw [h.2.2.2.1]
    rfl

open GeneratedEntity GeneratedUseCases in
/-- **C8.** Each generated create, update and delete use case publishes
exactly one domain event — `<Cap>Created`/`<Cap>Updated`/`<Cap>Deleted`, with
`aggregateId`, `data` and `timestamp` — when an event bus is injected, and
publishes nothing yet still succeeds when no event bus is injected: the
publisher's absence never causes a failure.  The repository dependency is the
injected `save`/`findById`; `genId` is the value of `this.generateId()` and
`now` the clock value. -/
theorem use_case_event_publishing (capd : String) (save : Entity → Entity)
    (genId : String) (now : Nat) (d : CreateInput)
    (findById : JSValue → Option Entity) (ex : Entity) (uid : JSValue) (upd : String)
    (hname : (JSStr.trim d.name).length ≠ 0) (hlen : d.name.length ≤ 255)
    (hgen : genId ≠ "") (hfind : findById uid = some ex)
    (hupd : upd = "" ∨ JSStr.trim upd ≠ "") :
    (createExecute capd save true genId now (some d) =
      .ok (save ⟨(if d.id.truthy then d.id else .str genId), d.name, now, now⟩,
        [⟨capd ++ "Created",
          (save ⟨(if d.id.truthy then d.id else .str genId), d.name, now, now⟩).id,
          toJSONValue (save ⟨(if d.id.truthy then d.id else .str genId), d.name, now, now⟩),
          now, 1⟩])) ∧
    (createExecute capd save false genId now (some d) =
      .ok (save ⟨(if d.id.truthy then d.id else .str genId), d.name, now, now⟩, [])) ∧
    (updateExecute capd findById save true now uid upd =
      .ok (save (if upd = "" then { ex with updatedAt := now }
                 else { ex with name := upd, updatedAt := now }),
        [⟨capd ++ "Updated",
          (save (if upd = "" then { ex with updatedAt := now }
                 else { ex with name := upd, updatedAt := now })).id,
          toJSONValue (save (if upd = "" then { ex with updatedAt := now }
                 else { ex with name := upd, updatedAt := now })),
          now, 1⟩])) ∧
    (updateExecute capd findById save false now uid upd =
      .ok (save (if upd = "" then { ex with updatedAt := now }
                 else { ex with name := upd, updatedAt := now }), [])) ∧
    (deleteExecute capd findById true now uid =
      .ok (JSValue.obj [("id", uid), ("deleted", .bool true)],
        [⟨capd ++ "Deleted", uid, .obj [("id", uid)], now, 1⟩])) ∧
    (deleteExecute capd findById false now uid =
      .ok (JSValue.obj [("id", uid), ("deleted", .bool true)], [])) := by
  have hne : d.name ≠ "" := by
    intro e; apply hname; rw [e]; decide
  have hvalid : isValid ⟨(if d.id.truthy then d.id else .str genId), d.name, now, now⟩ = true := by
    simp only [isValid, Bool.and_eq_true, decide_eq_true_eq]
    refine ⟨⟨?_, by simpa using hne⟩, by omega⟩
    split
    · rename_i hid; exact hid
    · simp [JSValue.truthy, hgen]
  have hupd' : GeneratedEntity.update ex upd now =
      .ok (if upd = "" then { ex with updatedAt := now }
           else { ex with name := upd, updatedAt := now }) := by
    by_cases hz : upd = ""
    · simp [GeneratedEntity.update, hz]
    · rcases hupd with h | h
      · exact absurd h hz
      · simp [GeneratedEntity.update, hz, GeneratedEntity.updateName, h]
  refine ⟨?_, ?_, ?_, ?_, ?_, ?_⟩ <;>
    simp [createExecute, validateCreateInput, GeneratedEntity.create, updateExecute,
      deleteExecute, hname, hne, hvalid, Nat.not_lt.mpr hlen, hfind, hupd']

open GeneratedEntity GeneratedUseCases in
/-- Witness for C8: domain `Users`, identity repository, absent `data.id`
falling back to the generated id `gid1`, and an existing entity `7`/`Bob`
for update and delete. -/
theorem use_case_event_publishing_witness :
    createExecute "Users" id true "gid1" 0 (some ⟨JSValue.undef, "Ana"⟩) =
      .ok (⟨JSValue.str "gid1", "Ana", 0, 0⟩,
        [⟨"UsersCreated", JSValue.str "gid1",
          toJSONValue ⟨JSValue.str "gid1", "Ana", 0, 0⟩, 0, 1⟩]) ∧
    createExecute "Users" id false "gid1" 0 (some ⟨JSValue.undef, "Ana"⟩) =
      .ok (⟨JSValue.str "gid1", "Ana", 0, 0⟩, []) ∧
    deleteExecute "Users" (fun _ => some ⟨JSValue.str "7", "Bob", 0, 0⟩) false 0
        (JSValue.str "7") =
      .ok (JSValue.obj [("id", JSValue.str "7"), ("deleted", JSValue.bool true)], []) := by
  have h := use_case_event_publishing "Users" id "gid1" 0 ⟨JSValue.undef, "Ana"⟩
    (fun _ => some ⟨JSValue.str "7", "Bob", 0, 0⟩) ⟨JSValue.str "7", "Bob", 0, 0⟩
    (JSValue.str "7") "" (by decide) (by decide) (by decide) rfl (.inl rfl)
  exact ⟨h.1, h.2.1, h.2.2.2.2.2⟩

open GeneratedEntity in
/-- **C9.** For every id and name the generated entity's static `create`
accepts, the serialisation round trip `fromJSON(create(id, name).toJSON())`
yields an entity equal to the original by `id` and by `name`. -/
theorem entity_roundtrip_id_name (id : JSValue) (name : String) (now : Nat) (e : Entity)
    (h : GeneratedEntity.create id name now = .ok e) :
    (fromJSON (toJSON e)).id = id ∧ (fromJSON (toJSON e)).name = name := by
  by_cases hv : isValid ⟨id, name, now, now⟩ = true
  · simp only [GeneratedEntity.create, hv, if_true] at h
    injection h with h
    subst h
    exact ⟨rfl, rfl⟩
  · simp [GeneratedEntity.create, hv] at h

open GeneratedEntity in
/-- Witness for C9 at id `"1"`, name `"Ana"`. -/
theorem entity_roundtrip_id_name_witness :
    (fromJSON (toJSON ⟨JSValue.str "1", "Ana", 5, 5⟩)).id = JSValue.str "1" ∧
    (fromJSON (toJSON ⟨JSValue.str "1", "Ana", 5, 5⟩)).name = "Ana" :=
  entity_roundtrip_id_name (JSValue.str "1") "Ana" 5 ⟨JSValue.str "1", "Ana", 5, 5⟩ rfl

/-- **C10.** In template interpolation, a dotted path whose intermediate
value is defined but falsy (`0`, `""`, `false`) resolves to `undefined` — the
guarded reduce short-circuits — so the placeholder stays verbatim even though
every segment exists in the context; a defined falsy value at the final
segment, by contrast, is substituted as its string form. -/
theorem nested_lookup_falsy_semantics (fields : List (String × JSValue)) (k1 k2 : String)
    (hd1 : '.' ∉ k1.data) (hd2 : '.' ∉ k2.data)
    (hb1 : '}' ∉ k1.data) (hb2 : '}' ∉ k2.data)
    (htrim : JSStr.trim (k1 ++ "." ++ k2) = k1 ++ "." ++ k2) :
    (∀ w, (JSValue.obj fields).getProp k1 = w → w.isUndef = false → w.truthy = false →
      TemplateEngine.getNestedProperty (JSValue.obj fields) (k1 ++ "." ++ k2) =
        JSValue.undef ∧
      TemplateEngine.interpolate ("$\x7b" ++ (k1 ++ "." ++ k2) ++ "\x7d") (JSValue.obj fields) =
        "$\x7b" ++ (k1 ++ "." ++ k2) ++ "\x7d") ∧
    (∀ w, ((JSValue.obj fields).getProp k1).truthy = true →
      ((JSValue.obj fields).getProp k1).getProp k2 = w →
      w.isUndef = false → w.truthy = false →
      TemplateEngine.getNestedProperty (JSValue.obj fields) (k1 ++ "." ++ k2) = w ∧
      TemplateEngine.interpolate ("$\x7b" ++ (k1 ++ "." ++ k2) ++ "\x7d") (JSValue.obj fields) =
        w.jsToString) := by
  have hkey_ne : (k1 ++ "." ++ k2) ≠ "" := by
    intro e
    have h2 : (k1 ++ "." ++ k2).data = ("" : String).data := congrArg String.data e
    have edot : ("." : String).data = ['.'] := by decide
    simp [String.data_append, edot] at h2
  have hkey_nb : '}' ∉ (k1 ++ "." ++ k2).data := by
    have edot : ("." : String).data = ['.'] := by decide
    simp only [String.data_append, edot, List.mem_append, List.mem_singleton]
    intro hmem
    rcases hmem with (h | h) | h
    · exact hb1 h
    · cases h
    · exact hb2 h
  have hbase := nested_two_segments (JSValue.obj fields) k1 k2 hd1 hd2 rfl
  have hinterp := interp_single (JSValue.obj fields) (k1 ++ "." ++ k2) hkey_ne hkey_nb
  rw [htrim] at hinterp
  constructor
  · rintro w rfl hu ht
    have hres : TemplateEngine.getNestedProperty (JSValue.obj fields) (k1 ++ "." ++ k2) =
        JSValue.undef := by
      rw [hbase, if_neg (by simp [hu]), if_neg (by simp [ht])]
    refine ⟨hres, ?_⟩
    rw [hinterp, hres]
    simp [JSValue.isUndef]
  · intro w hmid hget hu ht
    have hmu : ((JSValue.obj fields).getProp k1).isUndef = false := by
      rcases hcv : (JSValue.obj fields).getProp k1 with _ | _ | _ | _ | _ | _ | _ <;>
        simp_all [JSValue.truthy, JSValue.isUndef]
    have hres : TemplateEngine.getNestedProperty (JSValue.obj fields) (k1 ++ "." ++ k2) = w := by
      rw [hbase, if_neg (by simp [hmu]), if_pos hmid, hget, if_neg (by simp [hu])]
    refine ⟨hres, ?_⟩
    rw [hinterp, hres, if_neg (by simp [hu])]

/-- Witness for C10: the intermediate falsy value `{user: 0}` leaves
`${user.name}` verbatim; the final falsy value `{user:{count: 0}}`
substitutes `"0"`. -/
theorem nested_lookup_falsy_semantics_witness :
    TemplateEngine.getNestedProperty (JSValue.obj [("user", JSValue.num 0)]) "user.name" =
      JSValue.undef ∧
    TemplateEngine.interpolate "${user.name}" (JSValue.obj [("user", JSValue.num 0)]) =
      "${user.name}" ∧
    TemplateEngine.getNestedProperty
        (JSValue.obj [("user", JSValue.obj [("count", JSValue.num 0)])]) "user.count" =
      JSValue.num 0 ∧
    TemplateEngine.interpolate "${user.count}"
        (JSValue.obj [("user", JSValue.obj [("count", JSValue.num 0)])]) = "0" := by
  have e1 : ("user" ++ "." ++ "name" : String) = "user.name" := by decide
  have e2 : ("user" ++ "." ++ "count" : String) = "user.count" := by decide
  have e3 : ("$\x7b" ++ ("user" ++ "." ++ "name") ++ "\x7d" : String) = "${user.name}" := by decide
  have e4 : ("$\x7b" ++ ("user" ++ "." ++ "count") ++ "\x7d" : String) = "${user.count}" := by decide
  have h1 := (nested_lookup_falsy_semantics [("user", JSValue.num 0)] "user" "name"
    (by decide) (by decide) (by decide) (by decide) (by decide)).1
    (JSValue.num 0) rfl rfl (by decide)
  have h2 := (nested_lookup_falsy_semantics
    [("user", JSValue.obj [("count", JSValue.num 0)])] "user" "count"
    (by decide) (by decide) (by decide) (by decide) (by decide)).2
    (JSValue.num 0) rfl rfl rfl (by decide)
  have e5 : ("$\x7b" ++ "user.name" ++ "\x7d" : String) = "${user.name}" := by decide
  have e6 : ("$\x7b" ++ "user.count" ++ "\x7d" : String) = "${user.count}" := by decide
  rw [e1, e5] at h1
  rw [e2, e6] at h2
  exact ⟨h1.1, h1.2, h2.1, h2.2⟩

theorem str_assoc (a b c : String) : a ++ b ++ c = a ++ (b ++ c) := by
  apply str_eq_of_data
  simp [String.data_append]

open ProjectGenerator in
theorem mapJoin_domain (d : String) : (segDomainDirs d).map joinSegs = domainDirs d := by
  have f1 : ("src/" : String).data = ("src" : String).data ++ ("/" : String).data := by decide
  have f2 : ("/application" : String).data =
      ("/" : String).data ++ ("application" : String).data := by decide
  have f3 : ("/application/services" : String).data = ("/" : String).data ++
      (("application" : String).data ++ (("/" : String).data ++ ("services" : String).data)) := by
    decide
  have f4 : ("/application/use-cases" : String).data = ("/" : String).data ++
      (("application" : String).data ++ (("/" : String).data ++ ("use-cases" : String).data)) := by
    decide
  have f5 : ("/application/ports" : String).data = ("/" : String).data ++
      (("application" : String).data ++ (("/" : String).data ++ ("ports" : String).data)) := by
    decide
  have f6 : ("/domain" : String).data = ("/" : String).data ++ ("domain" : String).data := by
    decide
  have f7 : ("/domain/entities" : String).data = ("/" : String).data ++
      (("domain" : String).data ++ (("/" : String).data ++ ("entities" : String).data)) := by
    decide
  have f8 : ("/domain/value-objects" : String).data = ("/" : String).data ++
      (("domain" : String).data ++ (("/" : String).data ++ ("value-objects" : String).data)) := by
    decide
  have f9 : ("/domain/events" : String).data = ("/" : String).data ++
      (("domain" : String).data ++ (("/" : String).data ++ ("events" : String).data)) := by
    decide
  have f10 : ("/infrastructure" : String).data =
      ("/" : String).data ++ ("infrastructure" : String).data := by decide
  have f11 : ("/infrastructure/repositories" : String).data = ("/" : String).data ++
      (("infrastructure" : String).data ++
        (("/" : String).data ++ ("repositories" : String).data)) := by decide
  have f12 : ("/infrastructure/controllers" : String).data = ("/" : String).data ++
      (("infrastructure" : String).data ++
        (("/" : String).data ++ ("controllers" : String).data)) := by decide
  have f13 : ("/infrastructure/adapters" : String).data = ("/" : String).data ++
      (("infrastructure" : String).data ++
        (("/" : String).data ++ ("adapters" : String).data)) := by decide
  simp only [segDomainDirs, domainDirs, List.map_cons, List.map_nil, joinSegs,
    List.cons.injEq, and_true]
  refine ⟨?_, ?_, ?_, ?_, ?_, ?_, ?_, ?_, ?_, ?_, ?_, ?_, ?_⟩ <;>
    · apply str_eq_of_data
      simp [String.data_append, f1, f2, f3, f4, f5, f6, f7, f8, f9, f10, f11, f12, f13]

open ProjectGenerator in
theorem mapJoin_domainTests (d : String) :
    (segDomainTestDirs d).map joinSegs = domainTestDirs d := by
  have f1 : ("tests/" : String).data = ("tests" : String).data ++ ("/" : String).data := by decide
  have f2 : ("/unit" : String).data = ("/" : String).data ++ ("unit" : String).data := by decide
  have f3 : ("/integration" : String).data =
      ("/" : String).data ++ ("integration" : String).data := by decide
  simp only [segDomainTestDirs, domainTestDirs, List.map_cons, List.map_nil, joinSegs,
    List.cons.injEq, and_true]
  refine ⟨?_, ?_, ?_⟩ <;>
    · apply str_eq_of_data
      simp [String.data_append, f1, f2, f3]

open ProjectGenerator in
theorem mapJoin_base : segBaseDirs.map joinSegs = baseDirs := by decide

open ProjectGenerator in
theorem mapJoin_testBase : segTestBaseDirs.map joinSegs = testBaseDirs := by decide

open ProjectGenerator in
theorem mapJoin_docker (db : RepositoryGenerator.Database) :
    (segDockerDirs db).map joinSegs = dockerDirs db := by
  cases db <;> decide

open ProjectGenerator in
theorem render_structure (info : ProjectInfo) :
    createProjectStructureDirs info = (segStructureDirs info).map joinSegs := by
  unfold createProjectStructureDirs segStructureDirs
  rw [List.map_append, List.map_append, List.map_append, mapJoin_base]
  have hT : (if info.includeTests then segTestBaseDirs else []).map joinSegs =
      (if info.includeTests then testBaseDirs else []) := by
    cases info.includeTests <;> simp [mapJoin_testBase]
  have hD : (if info.includeDocker then segDockerDirs info.database else []).map joinSegs =
      (if info.includeDocker then dockerDirs info.database else []) := by
    cases info.includeDocker <;> simp [mapJoin_docker]
  have hF : (info.domains.flatMap
        (fun d => segDomainDirs d ++ if info.includeTests then segDomainTestDirs d else [])).map
          joinSegs =
      info.domains.flatMap
        (fun d => domainDirs d ++ if info.includeTests then domainTestDirs d else []) := by
    rw [List.map_flatMap]
    apply List.flatMap_congr
    intro d _
    rw [List.map_append, mapJoin_domain]
    cases info.includeTests <;> simp [mapJoin_domainTests]
  rw [hT, hD, hF]

theorem slash_boundary : ∀ (a b x y : List Char), '/' ∉ a → '/' ∉ b →
    a ++ '/' :: x = b ++ '/' :: y → a = b ∧ x = y := by
  intro a
  induction a with
  | nil =>
    intro b x y _ hb h
    cases b with
    | nil => simp_all
    | cons c bs =>
      simp only [List.nil_append, List.cons_append, List.cons.injEq] at h
      exact absurd (h.1 ▸ List.mem_cons_self c bs) hb
  | cons c as' ih =>
    intro b x y ha hb h
    cases b with
    | nil =>
      simp only [List.cons_append, List.nil_append, List.cons.injEq] at h
      exact absurd (h.1 ▸ List.mem_cons_self c as') ha
    | cons c' bs =>
      simp only [List.cons_append, List.cons.injEq] at h
      obtain ⟨rfl, h2⟩ := h
      have := ih bs x y (fun m => ha (List.mem_cons_of_mem c m))
        (fun m => hb (List.mem_cons_of_mem c m)) h2
      exact ⟨by rw [this.1], this.2⟩

theorem joinSegs_slash_mem (x : String) (z : List String) :
    '/' ∈ (ProjectGenerator.joinSegs (x :: z)).data ∨ z = [] := by
  cases z with
  | nil => exact .inr rfl
  | cons w ws =>
    left
    have : ProjectGenerator.joinSegs (x :: w :: ws) =
        x ++ "/" ++ ProjectGenerator.joinSegs (w :: ws) := rfl
    rw [this]
    simp [String.data_append]

theorem joinSegs_inj : ∀ (a b : List String), a ≠ [] → b ≠ [] →
    (∀ s ∈ a, '/' ∉ s.data) → (∀ s ∈ b, '/' ∉ s.data) →
    ProjectGenerator.joinSegs a = ProjectGenerator.joinSegs b → a = b := by
  intro a
  induction a with
  | nil => intro b ha; exact absurd rfl ha
  | cons x xs ih =>
    intro b _ hb ga gb h
    cases b with
    | nil => exact absurd rfl hb
    | cons y ys =>
      cases xs with
      | nil =>
        cases ys with
        | nil =>
          have : x = y := by simpa [ProjectGenerator.joinSegs] using h
          rw [this]
        | cons w ws =>
          exfalso
          rcases joinSegs_slash_mem y (w :: ws) with hm | hemp
          · rw [← h] at hm
            have : ProjectGenerator.joinSegs [x] = x := rfl
            rw [this] at hm
            exact ga x (by simp) hm
          · cases hemp
      | cons v vs =>
        cases ys with
        | nil =>
          exfalso
          rcases joinSegs_slash_mem x (v :: vs) with hm | hemp
          · rw [h] at hm
            have : ProjectGenerator.joinSegs [y] = y := rfl
            rw [this] at hm
            exact gb y (by simp) hm
          · cases hemp
        | cons w ws =>
          have hx : ProjectGenerator.joinSegs (x :: v :: vs) =
              x ++ "/" ++ ProjectGenerator.joinSegs (v :: vs) := rfl
          have hy : ProjectGenerator.joinSegs (y :: w :: ws) =
              y ++ "/" ++ ProjectGenerator.joinSegs (w :: ws) := rfl
          rw [hx, hy] at h
          have hdata : x.data ++ '/' :: (ProjectGenerator.joinSegs (v :: vs)).data =
              y.data ++ '/' :: (ProjectGenerator.joinSegs (w :: ws)).data := by
            have := congrArg String.data h
            simpa [String.data_append] using this
          have hsplit := slash_boundary x.data y.data _ _
            (ga x (by simp)) (gb y (by simp)) hdata
          have hxy : x = y := str_eq_of_data hsplit.1
          have htail : ProjectGenerator.joinSegs (v :: vs) =
              ProjectGenerator.joinSegs (w :: ws) := str_eq_of_data hsplit.2
          have := ih (w :: ws) (by simp) (by simp)
            (fun s hs => ga s (List.mem_cons_of_mem x hs))
            (fun s hs => gb s (List.mem_cons_of_mem y hs)) htail
          rw [hxy, this]

open ProjectGenerator in
theorem block_snd (tests : Bool) (d : String) (x : List String)
    (hx : x ∈ segDomainDirs d ++ (if tests then segDomainTestDirs d else [])) :
    x[1]? = some d := by
  rcases List.mem_append.mp hx with h | h
  · simp only [segDomainDirs, List.mem_cons, List.not_mem_nil, or_false] at h
    rcases h with rfl|rfl|rfl|rfl|rfl|rfl|rfl|rfl|rfl|rfl|rfl|rfl|rfl <;> rfl
  · cases tests with
    | false => simp at h
    | true =>
      simp only [if_true, segDomainTestDirs, List.mem_cons, List.not_mem_nil, or_false] at h
      rcases h with rfl|rfl|rfl <;> rfl

open ProjectGenerator in
theorem block_fst (tests : Bool) (d : String) (x : List String)
    (hx : x ∈ segDomainDirs d ++ (if tests then segDomainTestDirs d else [])) :
    x[0]? = some "src" ∨ x[0]? = some "tests" := by
  rcases List.mem_append.mp hx with h | h
  · left
    simp only [segDomainDirs, List.mem_cons, List.not_mem_nil, or_false] at h
    rcases h with rfl|rfl|rfl|rfl|rfl|rfl|rfl|rfl|rfl|rfl|rfl|rfl|rfl <;> rfl
  · right
    cases tests with
    | false => simp at h
    | true =>
      simp only [if_true, segDomainTestDirs, List.mem_cons, List.not_mem_nil, or_false] at h
      rcases h with rfl|rfl|rfl <;> rfl

open ProjectGenerator in
theorem block_nodup (tests : Bool) (d : String) :
    (segDomainDirs d ++ (if tests then segDomainTestDirs d else [])).Nodup := by
  cases tests <;> simp [segDomainDirs, segDomainTestDirs]

open ProjectGenerator in
theorem block_good (tests : Bool) (d : String) (hd : '/' ∉ d.data) (x : List String)
    (hx : x ∈ segDomainDirs d ++ (if tests then segDomainTestDirs d else [])) :
    x ≠ [] ∧ ∀ s ∈ x, '/' ∉ s.data := by
  rcases List.mem_append.mp hx with h | h
  · simp only [segDomainDirs, List.mem_cons, List.not_mem_nil, or_false] at h
    rcases h with rfl|rfl|rfl|rfl|rfl|rfl|rfl|rfl|rfl|rfl|rfl|rfl|rfl <;>
      · refine ⟨by simp, ?_⟩
        intro s hs
        simp only [List.mem_cons, List.not_mem_nil, or_false] at hs
        rcases hs with rfl | h' | h' <;> first
          | exact hd
          | decide
          | (rcases h' with rfl | rfl | rfl <;> first | exact hd | decide)
  · cases tests with
    | false => simp at h
    | true =>
      simp only [if_true, segDomainTestDirs, List.mem_cons, List.not_mem_nil, or_false] at h
      rcases h with rfl|rfl|rfl <;>
        · refine ⟨by simp, ?_⟩
          intro s hs
          simp only [List.mem_cons, List.not_mem_nil, or_false] at hs
          rcases hs with rfl | h' | h' <;> first
            | exact hd
            | decide
            | (rcases h' with rfl | rfl <;> first | exact hd | decide)

theorem slug_chars (s : String) (h : JSStr.isSlug s = true) :
    ∀ c ∈ s.data, (('a' ≤ c && c ≤ 'z') || ('0' ≤ c && c ≤ '9') || c = '-') = true := by
  intro c hc
  unfold JSStr.isSlug at h
  rcases s with ⟨l⟩
  match l, h, hc with
  | x :: rest, h, hc =>
    simp only [Bool.and_eq_true, List.all_eq_true] at h
    rcases List.mem_cons.mp hc with rfl | hc'
    · simp [h.1]
    · exact h.2 c hc'

theorem slug_no_slash (s : String) (h : JSStr.isSlug s = true) : '/' ∉ s.data := by
  intro hm
  have := slug_chars s h '/' hm
  revert this
  decide

open ProjectGenerator in
theorem block_fst_src (d : String) (x : List String) (hx : x ∈ segDomainDirs d) :
    x[0]? = some "src" := by
  simp only [segDomainDirs, List.mem_cons, List.not_mem_nil, or_false] at hx
  rcases hx with rfl|rfl|rfl|rfl|rfl|rfl|rfl|rfl|rfl|rfl|rfl|rfl|rfl <;> rfl

open ProjectGenerator RepositoryGenerator in
theorem sf_nodup (tests docker : Bool) (db : Database) :
    (segBaseDirs ++ (if tests then segTestBaseDirs else [])
      ++ (if docker then segDockerDirs db else [])).Nodup := by
  cases tests <;> cases docker <;> cases db <;> decide

open ProjectGenerator RepositoryGenerator in
theorem sf_block_disjoint (tests docker : Bool) (db : Database) (d : String)
    (hsh : d ≠ "shared")
    (hu : tests = true → d ≠ "unit" ∧ d ≠ "integration" ∧ d ≠ "e2e")
    (x : List String)
    (hx : x ∈ segBaseDirs ++ (if tests then segTestBaseDirs else [])
      ++ (if docker then segDockerDirs db else []))
    (hxb : x ∈ segDomainDirs d ++ (if tests then segDomainTestDirs d else [])) : False := by
  have h1 := block_snd tests d x hxb
  have h0 := block_fst tests d x hxb
  have hx' : x ∈ segBaseDirs ++ (segTestBaseDirs ++
      [["docker"], ["docker", db.asString], ["docker", db.asString, "init"]]) := by
    rcases List.mem_append.mp hx with h12 | h3
    · rcases List.mem_append.mp h12 with h | h
      · exact List.mem_append.mpr (.inl h)
      · refine List.mem_append.mpr (.inr (List.mem_append.mpr (.inl ?_)))
        cases tests with
        | false => simp at h
        | true => simpa using h
    · refine List.mem_append.mpr (.inr (List.mem_append.mpr (.inr ?_)))
      cases docker with
      | false => simp at h3
      | true =>
        simp only [if_true] at h3
        unfold segDockerDirs at h3
        rcases List.mem_append.mp h3 with h | h
        · simp only [List.mem_singleton] at h
          simp [h]
        · split at h
          · simp at h
          · simp only [List.mem_cons, List.not_mem_nil, or_false] at h
            rcases h with rfl | rfl <;> simp
  simp only [segBaseDirs, segTestBaseDirs, List.mem_append, List.mem_cons,
    List.not_mem_nil, or_false] at hx'
  rcases hx' with (rfl|rfl|rfl|rfl|rfl|rfl|rfl|rfl|rfl|rfl|rfl|rfl|rfl) |
    ((rfl|rfl|rfl|rfl) | (rfl|rfl|rfl))
  · simp at h1
  · simp at h1; exact hsh h1.symm
  · simp at h1; exact hsh h1.symm
  · simp at h1; exact hsh h1.symm
  · simp at h1; exact hsh h1.symm
  · simp at h1; exact hsh h1.symm
  · simp at h1; exact hsh h1.symm
  · simp at h1; exact hsh h1.symm
  · simp at h1; exact hsh h1.symm
  · simp at h1; exact hsh h1.symm
  · simp at h1; exact hsh h1.symm
  · rcases h0 with h | h <;> simp at h
  · rcases h0 with h | h <;> simp at h
  · simp at h1
  · cases htb : tests with
    | false =>
      rw [htb] at hxb
      have h2 := block_fst_src d _ (by simpa using hxb)
      simp at h2
    | true =>
      refine absurd ?_ (hu htb).1
      simp at h1
      exact h1.symm
  · cases htb : tests with
    | false =>
      rw [htb] at hxb
      have h2 := block_fst_src d _ (by simpa using hxb)
      simp at h2
    | true =>
      refine absurd ?_ (hu htb).2.1
      simp at h1
      exact h1.symm
  · cases htb : tests with
    | false =>
      rw [htb] at hxb
      have h2 := block_fst_src d _ (by simpa using hxb)
      simp at h2
    | true =>
      refine absurd ?_ (hu htb).2.2
      simp at h1
      exact h1.symm
  · simp at h1
  · rcases h0 with h | h <;> simp at h
  · rcases h0 with h | h <;> simp at h

open ProjectGenerator in
theorem segBase_good : ∀ x ∈ segBaseDirs, x ≠ [] ∧ ∀ s ∈ x, '/' ∉ s.data := by decide

open ProjectGenerator in
theorem testBase_good : ∀ x ∈ segTestBaseDirs, x ≠ [] ∧ ∀ s ∈ x, '/' ∉ s.data := by decide

open ProjectGenerator RepositoryGenerator in
theorem docker_good (db : Database) :
    ∀ x ∈ segDockerDirs db, x ≠ [] ∧ ∀ s ∈ x, '/' ∉ s.data := by
  cases db <;> decide

open ProjectGenerator RepositoryGenerator in
theorem segs_good (info : ProjectInfo)
    (hslug : ∀ d ∈ info.domains, JSStr.isSlug d = true) :
    ∀ x ∈ segStructureDirs info, x ≠ [] ∧ ∀ s ∈ x, '/' ∉ s.data := by
  intro x hx
  unfold segStructureDirs at hx
  rcases List.mem_append.mp hx with h12 | hflat
  · rcases List.mem_append.mp h12 with h1 | h2
    · rcases List.mem_append.mp h1 with h | h
      · exact segBase_good x h
      · refine testBase_good x ?_
        by_cases hc : info.includeTests = true
        · rwa [if_pos hc] at h
        · rw [if_neg hc] at h
          exact absurd h (List.not_mem_nil x)
    · refine docker_good info.database x ?_
      by_cases hc : info.includeDocker = true
      · rwa [if_pos hc] at h2
      · rw [if_neg hc] at h2
        exact absurd h2 (List.not_mem_nil x)
  · rcases List.mem_flatMap.mp hflat with ⟨d, hd, hxd⟩
    exact block_good info.includeTests d (slug_no_slash d (hslug d hd)) x hxd

open ProjectGenerator RepositoryGenerator in
theorem segs_nodup (info : ProjectInfo)
    (hnodup : info.domains.Nodup)
    (hshared : ∀ d ∈ info.domains, d ≠ "shared")
    (htests : info.includeTests = true → ∀ d ∈ info.domains,
       d ≠ "unit" ∧ d ≠ "integration" ∧ d ≠ "e2e") :
    (segStructureDirs info).Nodup := by
  unfold segStructureDirs
  rw [List.nodup_append]
  refine ⟨sf_nodup info.includeTests info.includeDocker info.database, ?_, ?_⟩
  · rw [List.nodup_flatMap]
    refine ⟨fun d _ => block_nodup info.includeTests d, ?_⟩
    have hp : info.domains.Pairwise (· ≠ ·) := hnodup
    apply hp.imp
    intro a b hab
    intro x hxa hxb
    have h1 := block_snd info.includeTests a x hxa
    have h2 := block_snd info.includeTests b x hxb
    rw [h1] at h2
    exact hab (Option.some.inj h2)
  · intro x hx hflat
    rcases List.mem_flatMap.mp hflat with ⟨d, hd, hxd⟩
    exact sf_block_disjoint info.includeTests info.includeDocker info.database d
      (hshared d hd) (fun ht => htests ht d hd) x hx hxd

open ProjectGenerator in
/-- **C5 (amended).** For a specification whose domain list is non-empty,
made of slug identifiers and duplicate-free — and, as the counterexample
`structure_plan_dup_shared` forces, with no domain named `shared` and (when
tests are enabled) none named `unit`, `integration` or `e2e` — the planned
directory list has no duplicate paths, contains each domain's three
top-level subtrees, and appends the per-domain directories in specification
order after the fixed base/test/docker directories. -/
theorem structure_plan_nodup (info : ProjectInfo)
    (hne : info.domains ≠ [])
    (hslug : ∀ d ∈ info.domains, JSStr.isSlug d = true)
    (hnodup : info.domains.Nodup)
    (hshared : ∀ d ∈ info.domains, d ≠ "shared")
    (htests : info.includeTests = true → ∀ d ∈ info.domains,
       d ≠ "unit" ∧ d ≠ "integration" ∧ d ≠ "e2e") :
    (createProjectStructureDirs info).Nodup ∧
    (∀ d ∈ info.domains,
       ("src/" ++ d ++ "/application") ∈ createProjectStructureDirs info ∧
       ("src/" ++ d ++ "/domain") ∈ createProjectStructureDirs info ∧
       ("src/" ++ d ++ "/infrastructure") ∈ createProjectStructureDirs info) ∧
    createProjectStructureDirs info =
      baseDirs ++ (if info.includeTests then testBaseDirs else [])
        ++ (if info.includeDocker then dockerDirs info.database else [])
        ++ info.domains.flatMap
            (fun d => domainDirs d ++ if info.includeTests then domainTestDirs d else []) := by
  refine ⟨?_, ?_, rfl⟩
  · rw [render_structure]
    apply List.Nodup.map_on
    · intro x hx y hy he
      have gx := segs_good info hslug x hx
      have gy := segs_good info hslug y hy
      exact joinSegs_inj x y gx.1 gy.1 gx.2 gy.2 he
    · exact segs_nodup info hnodup hshared htests
  · intro d hd
    refine ⟨?_, ?_, ?_⟩ <;>
      · unfold createProjectStructureDirs
        refine List.mem_append.mpr (.inr (List.mem_flatMap.mpr ⟨d, hd, ?_⟩))
        refine List.mem_append.mpr (.inl ?_)
        simp [domainDirs]

open ProjectGenerator in
/-- Counterexample to C5 as stated: the domain list `["shared"]` is
non-empty, all slugs and duplicate-free, yet the planned directory list
duplicates `src/shared` (and five further paths) because the fixed shared
subtree uses the same names. -/
theorem structure_plan_dup_shared :
    JSStr.isSlug "shared" = true ∧
    (["shared"] : List String) ≠ [] ∧
    (["shared"] : List String).Nodup ∧
    ¬ (createProjectStructureDirs
        ⟨"shop", "", "", "1.0.0", ["shared"], false, false, .dbNone⟩).Nodup := by
  refine ⟨by decide, by decide, by decide, by decide⟩

open ProjectGenerator in
/-- Witness for the amended C5 at the two-domain specification
`{name:"shop", domains:["orders","users"]}`. -/
theorem structure_plan_nodup_witness :
    (createProjectStructureDirs
        ⟨"shop", "", "", "1.0.0", ["orders", "users"], false, false, .dbNone⟩).Nodup ∧
    "src/orders/application" ∈ createProjectStructureDirs
        ⟨"shop", "", "", "1.0.0", ["orders", "users"], false, false, .dbNone⟩ ∧
    "src/users/infrastructure" ∈ createProjectStructureDirs
        ⟨"shop", "", "", "1.0.0", ["orders", "users"], false, false, .dbNone⟩ := by
  have h := structure_plan_nodup
    ⟨"shop", "", "", "1.0.0", ["orders", "users"], false, false, .dbNone⟩
    (by decide) (by decide) (by decide) (by decide) (by decide)
  have e1 : ("src/" ++ "orders" ++ "/application" : String) = "src/orders/application" := by
    decide
  have e2 : ("src/" ++ "users" ++ "/infrastructure" : String) = "src/users/infrastructure" := by
    decide
  refine ⟨h.1, ?_, ?_⟩
  · have := (h.2.1 "orders" (by decide)).1
    rwa [e1] at this
  · have := (h.2.1 "users" (by decide)).2.2
    rwa [e2] at this
